import Mathlib

/-!
# Verification of the Orange widget layer (excerpted sources)

Shallow embedding of the widget code under `src/Orange/widgets/`:

* `Orange/widgets/data/owoutliers.py` — the outlier-detection task `run`,
  `OWOutliers.commit`, `on_done`, `migrate_settings`;
* `Orange/widgets/unsupervised/owdistances.py` — `DistanceRunner.run`,
  `OWDistances.compute_distances`, `on_done`, `migrate_settings`;
* `Orange/widgets/visualize/owfreeviz.py` — `run_freeviz`, `OWFreeViz._run`,
  `on_partial_result`;
* `Orange/widgets/unsupervised/owmanifoldlearning.py` — `OWManifoldLearning.commit`;
* `Orange/widgets/data/owdatasampler.py` — `OWDataSampler.commit`, `updateindices`.

Numeric computations done by the wrapped libraries (scikit-learn fits, the
FreeViz gradient step, distance kernels) are parameters of the embedding: the
control flow around them — callbacks, interruption checks, event traces,
output sends — is translated line by line from the Python sources.
-/

namespace Spec2Proof

/-! ## Task state (`Orange.widgets.utils.concurrent.TaskState`)

A task function receives a `TaskState` and polls `is_interruption_requested()`.
Interruption is monotone: once the GUI requests it, every later poll sees it.
We model the request time as the index of the first poll that observes it
(`none` = never requested); polls are numbered 0, 1, 2, … in the order the
task function makes them. -/

structure TaskState where
  reqAt : Option Nat
  deriving DecidableEq, Repr

/-- `state.is_interruption_requested()` at the `k`-th poll. -/
def TaskState.isInterruptionRequested (st : TaskState) (k : Nat) : Bool :=
  match st.reqAt with
  | none => false
  | some t => t ≤ k

/-- A task state whose interruption is never requested. -/
def TaskState.never : TaskState := ⟨none⟩

/-- Numpy fancy indexing `data[ind]` for an index array `ind`: the rows of
`data` at the given indices (used by `owoutliers.run` and
`OWDataSampler.commit`). -/
def select {Row : Type} (data : List Row) (ind : List Nat) : List Row :=
  ind.filterMap data.get?

/-! ## `Orange/widgets/data/owoutliers.py` — the background task `run`

```python
def run(data: Table, learner: Learner, state: TaskState) -> Results:
    results = Results()
    if not data:
        return results
    def callback(i: float, status=""):
        state.set_progress_value(i * 100)
        if status:
            state.set_status(status)
        if state.is_interruption_requested():
            raise Exception
    callback(0, "初始化...")
    model = learner(data, wrap_callback(callback, end=0.6))
    pred = model(data, wrap_callback(callback, start=0.6, end=0.99))
    col = pred.get_column(model.outlier_var)
    inliers_ind = np.where(col == 1)[0]
    outliers_ind = np.where(col == 0)[0]
    results.inliers = data[inliers_ind]
    results.outliers = data[outliers_ind]
    results.annotated_data = pred
    callback(1)
    return results
```

A `Table` is a list of rows. The learner fit and the model prediction are
opaque library calls that invoke the (wrapped) callback some number of times;
we pass the argument lists of those invocations as parameters
(`learnerCalls`, `modelCalls`), together with the prediction table `pred` and
its outlier column `col` (`pred.get_column(model.outlier_var)`). -/

namespace OWOutliers

/-- Events a task emits through its `TaskState`. -/
inductive Ev where
  | progress (v : ℚ)
  | status (s : String)
  deriving DecidableEq, Repr

/-- `class Results(SimpleNamespace)`: all three fields default to `None`. -/
structure Results (Row : Type) where
  inliers : Option (List Row) := none
  outliers : Option (List Row) := none
  annotated_data : Option (List Row) := none
  deriving DecidableEq, Repr

/-- One invocation of the inner `callback(i, status)`: it emits
`set_progress_value(i * 100)`, emits the status if non-empty, and raises
(`Bool` result `true`) iff interruption is requested at this, the `k`-th,
poll. -/
def callback (st : TaskState) (k : Nat) (i : ℚ) (status : String) :
    List Ev × Bool :=
  (Ev.progress (i * 100) ::
    (if status = "" then [] else [Ev.status status]),
   st.isInterruptionRequested k)

/-- A sequence of `callback` invocations (as made by a library call through
`wrap_callback`): returns the emitted events, the next poll index, and
whether some invocation raised — in which case the later invocations never
happen. -/
def callbacks (st : TaskState) (k : Nat) :
    List (ℚ × String) → List Ev × Nat × Bool
  | [] => ([], k, false)
  | c :: rest =>
    let (evs, raised) := callback st k c.1 c.2
    if raised then (evs, k + 1, true)
    else
      let (evs', k', r') := callbacks st (k + 1) rest
      (evs ++ evs', k', r')

/-- `np.where(col == v)[0]`: the indices (in increasing order) at which the
column holds `v`. -/
def whereEq (col : List Nat) (v : Nat) : List Nat :=
  (List.range col.length).filter fun i => col.get? i == some v

/-- The body of `run`.  Result `none` models the exception raised from the
callback propagating out of `run`. -/
def run {Row : Type} (data : List Row)
    (learnerCalls modelCalls : List (ℚ × String))
    (pred : List Row) (col : List Nat) (st : TaskState) :
    List Ev × Option (Results Row) :=
  if data.isEmpty then ([], some {}) else
  let (e0, k0, r0) := callbacks st 0 [((0 : ℚ), "初始化...")]
  if r0 then (e0, none) else
  let (e1, k1, r1) := callbacks st k0 learnerCalls
  if r1 then (e0 ++ e1, none) else
  let (e2, k2, r2) := callbacks st k1 modelCalls
  if r2 then (e0 ++ e1 ++ e2, none) else
  let results : Results Row :=
    { inliers := some (select data (whereEq col 1))
      outliers := some (select data (whereEq col 0))
      annotated_data := some pred }
  let (e3, _, r3) := callbacks st k2 [((1 : ℚ), "")]
  if r3 then (e0 ++ e1 ++ e2 ++ e3, none)
  else (e0 ++ e1 ++ e2 ++ e3, some results)

/-- How many `set_progress_value` events a trace holds: each `callback`
invocation emits exactly one, so this counts the callback invocations that
actually happened. -/
def countProgress (evs : List Ev) : Nat :=
  evs.countP fun e => match e with | .progress _ => true | _ => false

end OWOutliers

/-! ## `Orange/widgets/unsupervised/owdistances.py`

Metric identifiers, module level:
```python
Euclidean, EuclideanNormalized, Manhattan, ManhattanNormalized, Cosine, \
    Mahalanobis, Hamming, \
    Pearson, PearsonAbsolute, Spearman, SpearmanAbsolute, Jaccard = range(12)
```
-/

namespace OWDistances

def Euclidean : Nat := 0
def EuclideanNormalized : Nat := 1
def Manhattan : Nat := 2
def ManhattanNormalized : Nat := 3
def Cosine : Nat := 4
def Mahalanobis : Nat := 5
def Hamming : Nat := 6
def Pearson : Nat := 7
def PearsonAbsolute : Nat := 8
def Spearman : Nat := 9
def SpearmanAbsolute : Nat := 10
def Jaccard : Nat := 11

/-- Events a distance task emits through its `TaskState`. -/
inductive Ev where
  | progress (v : ℚ)
  | status (s : String)
  deriving DecidableEq, Repr

/-- A run of `callback` invocations made by the metric computation; each
emits `set_progress_value(i)` and raises `InterruptException` (`true`) iff
interruption is requested at that poll:
```python
def callback(i: float) -> bool:
    state.set_progress_value(i)
    if state.is_interruption_requested():
        raise InterruptException
```
-/
def callbacks (st : TaskState) (k : Nat) : List ℚ → List Ev × Nat × Bool
  | [] => ([], k, false)
  | i :: rest =>
    let evs := [Ev.progress i]
    if st.isInterruptionRequested k then (evs, k + 1, true)
    else
      let (evs', k', r') := callbacks st (k + 1) rest
      (evs ++ evs', k', r')

/-- How many `set_progress_value` events a distance-task trace holds (one per
`callback` invocation). -/
def countProgress (evs : List Ev) : Nat :=
  evs.countP fun e => match e with | .progress _ => true | _ => false

end OWDistances

/-- `DistanceRunner.run`:
```python
@staticmethod
def run(data, metric, normalized_dist, axis, state) -> Optional[DistMatrix]:
    if data is None:
        return None
    def callback(i): ...   # see `OWDistances.callbacks`
    state.set_status("计算中...")
    kwargs = {"axis": 1 - axis, "impute": True, "callback": callback}
    if metric.supports_normalization and normalized_dist:
        kwargs["normalize"] = True
    return metric(data, **kwargs)
```
The metric itself is a library call: it invokes the callback at the fractions
`calls` and then yields `metricFn data normalize`. Outer result `none` models
the `InterruptException` escaping `run`; `some none` models returning
`None`. -/
def DistanceRunner.run {Dat DMat : Type} (data : Option Dat)
    (metricFn : Dat → Bool → DMat) (supportsNormalization : Bool)
    (normalized_dist : Bool) (calls : List ℚ) (st : TaskState) :
    List OWDistances.Ev × Option (Option DMat) :=
  match data with
  | none => ([], some none)
  | some d =>
    let e0 := [OWDistances.Ev.status "计算中..."]
    let normalize := supportsNormalization && normalized_dist
    let (e1, _, raised) := OWDistances.callbacks st 0 calls
    if raised then (e0 ++ e1, none)
    else (e0 ++ e1, some (some (metricFn d normalize)))

namespace OWDistances

/-- The settings keys `OWDistances.migrate_settings` touches; a field is
`none` when the key is absent from the settings dictionary. -/
structure DSettings where
  metric_idx : Option Nat := none
  normalized_dist : Option Bool := none
  metric_id : Option Nat := none
  deriving DecidableEq, Repr

/-- The version-4 migration table:
```python
metric_id = [Euclidean, Manhattan, Cosine, Jaccard,
             Spearman, SpearmanAbsolute, Pearson, PearsonAbsolute,
             Hamming, Mahalanobis, Euclidean][metric_idx]
```
-/
def v4MetricList : List Nat :=
  [Euclidean, Manhattan, Cosine, Jaccard,
   Spearman, SpearmanAbsolute, Pearson, PearsonAbsolute,
   Hamming, Mahalanobis, Euclidean]

/-- The current (version-4) settings schema: the `metric_idx` and
`normalized_dist` keys are gone and a `metric_id` key is present. -/
def inCurrentSchema : Option DSettings → Bool
  | some s => s.metric_idx == none && s.normalized_dist == none &&
      s.metric_id != none
  | none => false

/-- `{Euclidean: EuclideanNormalized, Manhattan: ManhattanNormalized}.get(metric_id, metric_id)` -/
def normalizedVariant (m : Nat) : Nat :=
  if m = Euclidean then EuclideanNormalized
  else if m = Manhattan then ManhattanNormalized
  else m

/-- `OWDistances.migrate_settings(settings, version)` for a concrete
`version` (the current `settings_version` is 4).  Result `none` models an
exception: a `KeyError` on `settings["metric_idx"]` / `settings.pop("metric_idx")`
or an `IndexError` on the migration table.
```python
if version is None or version < 2 and "normalized_dist" not in settings:
    settings["normalized_dist"] = False
if version is None or version < 3:
    metric_idx = settings["metric_idx"]
    if metric_idx == 2:
        settings["metric_idx"] = 9
    elif 2 < metric_idx <= 9:
        settings["metric_idx"] -= 1
if version < 4:
    metric_idx = settings.pop("metric_idx")
    metric_id = [...][metric_idx]
    if settings.pop("normalized_dist", False):
        metric_id = {Euclidean: EuclideanNormalized,
                     Manhattan: ManhattanNormalized}.get(metric_id, metric_id)
    settings["metric_id"] = metric_id
```
-/
def migrate_settings (s : DSettings) (version : Nat) : Option DSettings :=
  let s := if version < 2 && s.normalized_dist == none
           then { s with normalized_dist := some false } else s
  (if version < 3 then
      match s.metric_idx with
      | none => none
      | some i =>
        some (if i = 2 then { s with metric_idx := some 9 }
              else if 2 < i ∧ i ≤ 9 then { s with metric_idx := some (i - 1) }
              else s)
    else some s).bind fun s =>
  if version < 4 then
    match s.metric_idx with
    | none => none
    | some i =>
      match v4MetricList.get? i with
      | none => none
      | some mid =>
        let mid := if s.normalized_dist.getD false then normalizedVariant mid
                   else mid
        some { metric_idx := none, normalized_dist := none,
               metric_id := some mid }
  else some s

end OWDistances

/-! ## `Orange/widgets/visualize/owfreeviz.py` — `run_freeviz`

```python
MAX_ITERATIONS = 1000

def run_freeviz(data: Table, projector: FreeViz, state: TaskState):
    res = Result(projector=projector, projection=None)
    step, steps = 0, MAX_ITERATIONS
    initial = res.projector.components_.T
    state.set_status("计算中...")
    while True:
        # Needs a copy because projection should not be modified inplace. ...
        res.projection = res.projector(data).copy()
        anchors = res.projector.components_.T
        res.projector.initial = anchors
        state.set_partial_result(res)
        if np.allclose(initial, anchors, rtol=1e-5, atol=1e-4):
            return res
        initial = anchors
        step += 1
        state.set_progress_value(100 * step / steps)
        if state.is_interruption_requested():
            return res
```

`res.projector(data)` is the library call: one bounded FreeViz optimization
pass that updates `projector.components_` in place.  We model the anchor
matrix as an abstract type `A`, that pass as `stepf : A → A`, and
`np.allclose(..., rtol=1e-5, atol=1e-4)` as a Boolean relation
`near : A → A → Bool` (its floating-point tolerance arithmetic is opaque).
The projection built from anchors `a` is `.copy()`-ed before delivery;
on values the copy is the identity — what it buys (no aliasing with the
widget thread) is not observable in a value model. -/

namespace OWFreeViz

def MAX_ITERATIONS : Nat := 1000

/-- `class Result(namespace)`: the pair the task streams and returns. -/
structure Result (A : Type) where
  projector : A
  projection : Option A := none
  deriving DecidableEq, Repr

/-- `FreeVizModel.copy()` on the value level. -/
def copyModel {A : Type} (a : A) : A := a

/-- Events `run_freeviz` emits through its `TaskState`. -/
inductive Ev (A : Type) where
  | status (s : String)
  | partialResult (r : Result A)
  | progress (v : ℚ)
  deriving DecidableEq, Repr

/-- The `while True:` loop of `run_freeviz`, with explicit fuel (the source
loop has no iteration bound; `none` means the loop did not finish within
`fuel` iterations).  `initial` is the anchor matrix the iteration starts
from, `step` the step counter; the `step`-th interruption poll is the one
made after `step` has been incremented. -/
def loop {A : Type} (stepf : A → A) (near : A → A → Bool) (st : TaskState)
    (initial : A) (step : Nat) : Nat → List (Ev A) × Option (Result A)
  | 0 => ([], none)
  | fuel + 1 =>
    let anchors := stepf initial
    let res : Result A := { projector := anchors
                            projection := some (copyModel anchors) }
    let e1 := [Ev.partialResult res]
    if near initial anchors then (e1, some res)
    else
      let step' := step + 1
      let e2 := e1 ++ [Ev.progress ((100 * step' : ℚ) / MAX_ITERATIONS)]
      if st.isInterruptionRequested step' then (e2, some res)
      else
        let (evs, r) := loop stepf near st anchors step' fuel
        (e2 ++ evs, r)

/-- `run_freeviz` itself: sets the status, then enters the loop with
`step = 0`. -/
def run_freeviz {A : Type} (stepf : A → A) (near : A → A → Bool)
    (initial : A) (st : TaskState) (fuel : Nat) :
    List (Ev A) × Option (Result A) :=
  let (evs, r) := loop stepf near st initial 0 fuel
  (Ev.status "计算中..." :: evs, r)

/-- The widget state `on_partial_result` and `on_done` write. -/
structure Widget (A : Type) where
  projector : Option A := none
  projection : Option A := none
  deriving DecidableEq, Repr

/-- `OWFreeViz.on_partial_result`:
```python
def on_partial_result(self, result: Result):
    assert isinstance(result.projector, FreeViz)
    assert isinstance(result.projection, FreeVizModel)
    self.projector = result.projector
    self.projection = result.projection
    self.graph.update_coordinates()
    self.graph.update_density()
```
(the two graph calls redraw the plot and do not change this state). -/
def on_partial_result {A : Type} (w : Widget A) (result : Result A) :
    Widget A :=
  { w with projector := some result.projector
           projection := result.projection }

/-- The partial results delivered in an event trace, in order. -/
def partials {A : Type} (evs : List (Ev A)) : List (Result A) :=
  evs.filterMap fun e => match e with
    | .partialResult r => some r
    | _ => none

/-- The `set_progress_value` events of a trace. -/
def progressValues {A : Type} (evs : List (Ev A)) : List ℚ :=
  evs.filterMap fun e => match e with
    | .progress v => some v
    | _ => none

end OWFreeViz

/-! ## Commit handlers as effect traces (for the executor question)

Which executor a widget's recomputation runs on is a structural fact of its
commit handler: either it hands the computation to
`ConcurrentWidgetMixin.start(task_fn, ...)` (a cancellable background task
with a `TaskState`), or it performs the library call synchronously and sends
the result itself.  We embed each handler as the list of effects it performs,
in source order. -/

/-- An observable effect of a commit/run handler. -/
inductive Effect where
  | startTask (task : String)      -- `self.start(task_fn, ...)`
  | send (channel : String)        -- `self.Outputs.<channel>.send(...)`
  | computeSync (call : String)    -- a blocking library call made in the handler itself
  | clearMessages                  -- `self.clear_messages()` / `Error.clear()`+`Warning.clear()`
  | clearError (e : String)        -- `self.Error.<e>.clear()`
  | setError (e : String)          -- `self.Error.<e>()`
  deriving DecidableEq, Repr

/-- Is the effect a `start(...)` hand-off to the background executor? -/
def Effect.isStart : Effect → Bool
  | .startTask _ => true
  | _ => false

namespace OWOutliers

/-- `class OWOutliers(OWWidget, ConcurrentWidgetMixin)`. -/
def usesConcurrentWidgetMixin : Bool := true

/-- `OWOutliers.commit`:
```python
@gui.deferred
def commit(self):
    self.Error.singular_cov.clear()
    self.Error.memory_error.clear()
    self.n_inliers = self.n_outliers = None
    learner_class = self.METHODS[self.outlier_method]
    kwargs = self.current_editor.get_parameters()
    learner = learner_class(**kwargs)
    self.start(run, self.data, learner)
```
Constructing the learner object only stores its parameters; the training
happens inside the task `run`. -/
def commitEffects : List Effect :=
  [Effect.clearError "singular_cov", Effect.clearError "memory_error",
   Effect.startTask "run"]

end OWOutliers

namespace OWDistances

/-- `class OWDistances(OWWidget, ConcurrentWidgetMixin)`. -/
def usesConcurrentWidgetMixin : Bool := true

/-- `OWDistances.commit` calls `compute_distances(self.data)`, which clears
the messages, runs the `_check_*`/`_fix_*` guards (on failure one of them
sets an error and `data` becomes `None`), and in every case ends with
```python
self.start(DistanceRunner.run, data, metric, metric_def.normalize, self.axis)
```
`failedCheck` names the guard error when one fired. -/
def commitEffects (failedCheck : Option String) : List Effect :=
  [Effect.clearMessages] ++
  (match failedCheck with
   | some e => [Effect.setError e]
   | none => []) ++
  [Effect.startTask "DistanceRunner.run"]

end OWDistances

namespace OWFreeViz

/-- `class OWFreeViz(OWAnchorProjectionWidget, ConcurrentWidgetMixin)`. -/
def usesConcurrentWidgetMixin : Bool := true

/-- `OWFreeViz._run`:
```python
def _run(self):
    if self.data is None:
        return
    self.graph.set_sample_size(self.SAMPLE_SIZE)
    self.run_button.setText("停止")
    self.start(run_freeviz, self.effective_data, self.projector)
```
(the two GUI calls before `start` change only the plot and the button). -/
def runEffects (hasData : Bool) : List Effect :=
  if hasData then [Effect.startTask "run_freeviz"] else []

end OWFreeViz

namespace OWManifoldLearning

/-- `class OWManifoldLearning(OWWidget)` — the widget does not mix in
`ConcurrentWidgetMixin`. -/
def usesConcurrentWidgetMixin : Bool := false

/-- `OWManifoldLearning.commit`:
```python
@gui.deferred
def commit(self):
    ...
    out = None
    data = self.data
    method = self.MANIFOLD_METHODS[self.manifold_method_index]
    have_data = data is not None and len(data)
    self.Error.clear()
    self.Warning.clear()
    if have_data and data.is_sparse():
        self.Error.sparse_not_supported()
    elif have_data:
        ...
        try:
            projector = method(**self.get_method_parameters(data, method))
            model = projector(data)          # blocking library call
            ...
        except ValueError as e: ... self.Error...
        except MemoryError: self.Error.out_of_memory()
        except np.linalg.linalg.LinAlgError as e: self.Error.manifold_error(...)
        ...
    self.Outputs.transformed_data.send(out)
```
The manifold embedding `projector(data)` is computed synchronously inside the
commit handler; `failure` names the error set when the call raised. -/
def commitEffects (haveData sparse : Bool) (failure : Option String) :
    List Effect :=
  [Effect.clearMessages] ++
  (if haveData && sparse then [Effect.setError "sparse_not_supported"]
   else if haveData then
     [Effect.computeSync "projector(data)"] ++
     (match failure with
      | some e => [Effect.setError e]
      | none => [])
   else []) ++
  [Effect.send "transformed_data"]

end OWManifoldLearning

/-! ## Typed output channels

`Input`/`Output` declarations carry a type; `send` transmits a value of that
type or `None`. -/

/-- A value travelling on an output channel. -/
inductive Value where
  | table (rows : List Nat)
  | distMatrix (m : Nat)
  | nothing                       -- Python `None`
  deriving DecidableEq, Repr

/-- The declared type of an output channel. -/
inductive ChanType where
  | tableT                        -- `Output(..., Table)`
  | distMatrixT                   -- `Output(..., Orange.misc.DistMatrix)`
  deriving DecidableEq, Repr

/-- A value is acceptable on a channel iff it is `None` or an instance of the
channel's declared type. -/
def Value.hasType : Value → ChanType → Bool
  | .nothing, _ => true
  | .table _, .tableT => true
  | .distMatrix _, .distMatrixT => true
  | _, _ => false

/-- `Table`-or-`None` as a channel value. -/
def optTable : Option (List Nat) → Value
  | none => .nothing
  | some t => .table t

namespace OWDistances

/-- `distances = Output("距离", Orange.misc.DistMatrix, dynamic=False)`. -/
def distancesChannelType : ChanType := .distMatrixT

/-- `OWDistances.on_done`:
```python
def on_done(self, result: Orange.misc.DistMatrix):
    assert isinstance(result, Orange.misc.DistMatrix) or result is None
    self.Outputs.distances.send(result)
```
returning the `(channel type, value)` pairs sent. -/
def on_done (result : Option Nat) : List (ChanType × Value) :=
  [(distancesChannelType,
    match result with
    | none => Value.nothing
    | some m => Value.distMatrix m)]

end OWDistances

namespace OWOutliers

/-- `inliers = Output("内层", Table)`. -/
def inliersChannelType : ChanType := .tableT

/-- `outliers = Output("异常值", Table)`. -/
def outliersChannelType : ChanType := .tableT

/-- `data = Output("数据", Table)`. -/
def dataChannelType : ChanType := .tableT

/-- `OWOutliers.on_done`:
```python
def on_done(self, result: Results):
    inliers, outliers = result.inliers, result.outliers
    self.n_inliers = len(inliers) if inliers else None
    self.n_outliers = len(outliers) if outliers else None
    self.Outputs.inliers.send(inliers)
    self.Outputs.outliers.send(outliers)
    self.Outputs.data.send(result.annotated_data)
```
returning the `(channel type, value)` pairs sent. -/
def on_done (result : Results Nat) : List (ChanType × Value) :=
  [(inliersChannelType, optTable result.inliers),
   (outliersChannelType, optTable result.outliers),
   (dataChannelType, optTable result.annotated_data)]

/-- The settings keys `OWOutliers.migrate_settings` reads and the editor
sub-dictionaries it writes (`none` = key absent). -/
structure OSettings where
  nu : Option Nat := none
  gamma : Option ℚ := none
  cont : Option Nat := none
  empirical_covariance : Option Bool := none
  support_fraction : Option ℚ := none
  svm_editor : Option (Nat × ℚ) := none
  cov_editor : Option (Nat × Bool × ℚ) := none
  deriving DecidableEq, Repr

/-- `OWOutliers.migrate_settings(settings, version)` (current
`settings_version` is 2):
```python
if version is None or version < 2:
    settings["svm_editor"] = {"nu": settings.get("nu", 50),
                              "gamma": settings.get("gamma", 0.01)}
    ec, sf = "empirical_covariance", "support_fraction"
    settings["cov_editor"] = {"cont": settings.get("cont", 10),
                              ec: settings.get(ec, False),
                              sf: settings.get(sf, 1)}
```
-/
def migrate_settings (s : OSettings) (version : Nat) : OSettings :=
  if version < 2 then
    { s with
      svm_editor := some (s.nu.getD 50, s.gamma.getD (1 / 100))
      cov_editor := some (s.cont.getD 10, s.empirical_covariance.getD false,
                          s.support_fraction.getD 1) }
  else s

end OWOutliers

/-! ## `ConcurrentWidgetMixin` (task lifecycle) -/

namespace ConcurrentWidgetMixin

/-- Modelled from the spec: the
"`ConcurrentWidgetMixin`-style start/cancel/on_done/on_exception/on_partial_result"
contract with "cooperative cancellation, partial-result streaming, and
exactly-once terminal-state delivery".  `Orange/widgets/utils/concurrent.py`
itself is not among the repository files under `src/` (the widgets merely
refer to it), so the lifecycle is modelled from the spec's words: `start`
cancels any running task and launches a new one under a fresh generation id;
`cancel` interrupts and discards the running task; when a task's computation
finishes, its terminal callback — `on_done` on success, `on_exception` on
failure — is delivered iff that task is still the current one (neither
cancelled nor superseded by a later `start`).  A command is one GUI-thread
event. -/
inductive Cmd where
  | start                          -- widget calls `self.start(...)`
  | cancel                         -- widget calls `self.cancel()`
  | finish (g : Nat) (ok : Bool)   -- the task of generation `g` completes; `ok` = no exception
  deriving DecidableEq, Repr

/-- The mixin's bookkeeping: the next fresh generation id and the generation
of the currently running task, if any. -/
structure MState where
  nextGen : Nat := 0
  current : Option Nat := none
  deriving DecidableEq, Repr

/-- A terminal callback delivered to the widget. -/
inductive Callback where
  | onDone (g : Nat)
  | onException (g : Nat)
  deriving DecidableEq, Repr

/-- One lifecycle step: the next mixin state and the callbacks delivered. -/
def step : MState → Cmd → MState × List Callback
  | s, .start => ({ nextGen := s.nextGen + 1, current := some s.nextGen }, [])
  | s, .cancel => ({ s with current := none }, [])
  | s, .finish g ok =>
    if s.current = some g then
      ({ s with current := none },
       [if ok then Callback.onDone g else Callback.onException g])
    else (s, [])

/-- The callbacks delivered over a whole command sequence. -/
def runCmds : MState → List Cmd → List Callback
  | _, [] => []
  | s, c :: cs =>
    let (s', out) := step s c
    out ++ runCmds s' cs

/-- How many terminal callbacks a trace delivers for generation `g`. -/
def terminalsFor (g : Nat) (cbs : List Callback) : Nat :=
  cbs.countP fun cb => match cb with
    | .onDone g' => g' == g
    | .onException g' => g' == g

/-- Generations are handed out in order: a running task's id is below the
next fresh id. -/
def WF (s : MState) : Prop := ∀ g, s.current = some g → g < s.nextGen

/-- How many terminal callbacks generation `g` may still receive from state
`s`: one while its task runs (or its id has not been handed out yet), none
once it is done, cancelled or superseded. -/
def bound (s : MState) (g : Nat) : Nat :=
  if s.current = some g ∨ s.nextGen ≤ g then 1 else 0

end ConcurrentWidgetMixin

/-! ## The coalesced commit operation (`commit.now` / `commit.deferred`) -/

namespace DeferredCommit

/-- Modelled from the spec: "a coalesced 'commit' operation (immediate or
deferred) recomputes outputs without redundant work".  The `gui.deferred`
decorator and the auto-apply machinery live in `orangewidget.gui`, which is
not among the repository files under `src/`; per the spec's words:
`commit.now()` runs the commit body immediately; `commit.deferred()` runs it
immediately when auto-commit is enabled and otherwise only marks the widget
dirty; pressing the apply button runs the body once iff the widget is dirty.
`params` is whatever widget state the body reads; `runs` counts body
executions; `output` is what the last execution sent. -/
structure CState (P O : Type) where
  auto : Bool
  params : P
  dirty : Bool := false
  output : Option O := none
  runs : Nat := 0

/-- `self.commit.now()`: run the body at once. -/
def commitNow {P O : Type} (body : P → O) (s : CState P O) : CState P O :=
  { s with dirty := false, output := some (body s.params), runs := s.runs + 1 }

/-- `self.commit.deferred()`. -/
def commitDeferred {P O : Type} (body : P → O) (s : CState P O) : CState P O :=
  if s.auto then commitNow body s else { s with dirty := true }

/-- The user presses the apply button (or re-enables auto-commit). -/
def applyPressed {P O : Type} (body : P → O) (s : CState P O) : CState P O :=
  if s.dirty then commitNow body s else s

/-- `OWOutliers.set_data` (the `Inputs.data` handler): stores the new input
and calls `self.commit.now()`:
```python
@Inputs.data
@check_sql_input
def set_data(self, data):
    self.cancel()
    self.clear_messages()
    self.data = data
    self.enable_controls()
    self.commit.now()
```
`upd` is the parameter update `self.data = data`. -/
def set_data {P O : Type} (body : P → O) (upd : P → P) (s : CState P O) :
    CState P O :=
  commitNow body { s with params := upd s.params }

/-- A parameter-editor change: `OWOutliers._init_editors` wires
`editor.param_changed.connect(self.commit.deferred)`, and the editor callback
first stores the new parameter value. -/
def param_changed {P O : Type} (body : P → O) (upd : P → P) (s : CState P O) :
    CState P O :=
  commitDeferred body { s with params := upd s.params }

end DeferredCommit

/-! ## `Orange/widgets/data/owdatasampler.py` -/

namespace OWDataSampler

/-- `FixedProportion, FixedSize, CrossValidation, Bootstrap = range(4)`. -/
def FixedProportion : Nat := 0
def FixedSize : Nat := 1
def CrossValidation : Nat := 2
def Bootstrap : Nat := 3

/-- The widget's `Error` messages. -/
inductive SErr where
  | no_data
  | too_many_folds
  | sample_larger_than_data
  | not_enough_to_stratify
  deriving DecidableEq, Repr

/-- The widget's `Warning` messages. -/
inductive SWarn where
  | bigger_sample
  | could_not_stratify
  deriving DecidableEq, Repr

/-- What `self.sample(...)` returns: a `(remaining, sample)` pair of index
arrays for `FixedProportion`/`FixedSize`/`Bootstrap`, or one pair per fold
for `CrossValidation`. -/
inductive IndicesV where
  | pair (remaining sample : List Nat)
  | folds (fs : List (List Nat × List Nat))
  deriving DecidableEq, Repr

/-- The widget state the sampler's `commit`/`updateindices` read and write.
`data` is a non-SQL input table (`none` = no input); `numClassValues` is
`len(domain.class_var.values)` when the domain has a discrete class and
`none` otherwise; `out_data_sample`/`out_remaining_data` hold the values last
sent on the two output channels. -/
structure State (Row : Type) where
  data : Option (List Row) := none
  numClassValues : Option Nat := none
  sampling_type : Nat := FixedProportion
  sampleSizeNumber : Nat := 1
  sampleSizePercentage : Nat := 70
  number_of_folds : Nat := 10
  selectedFold : Nat := 1
  replacement : Bool := false
  stratify : Bool := false
  use_seed : Bool := true
  compatibility_mode : Bool := false
  indices : Option IndicesV := none
  errors : List SErr := []
  warnings : List SWarn := []
  sampled_instances : Option Nat := none
  remaining_instances : Option Nat := none
  out_data_sample : Option (List Row) := none
  out_remaining_data : Option (List Row) := none

/-- `np.ceil(self.sampleSizePercentage / 100 * data_length)` for an integer
percentage: the ceiling of `pct * n / 100`. -/
def ceilPct (pct n : Nat) : Nat := (pct * n + 99) / 100

/-- `OWDataSampler.updateindices` (see the Python source quoted with the
claim): clears errors and warnings, derives `repl`/`size` from the sampling
type, activates the applicable errors, and either nulls `indices` (on error)
or stores a fresh sample.  `sampler stratified` stands for
`self.sample(data_length, size, stratified)`; its `none` models the
`ValueError` a failed stratification raises, upon which the source warns and
retries unstratified — a failure of the retry (`none` overall) would
propagate. -/
def updateindices {Row : Type} (sampler : Bool → Option IndicesV)
    (s : State Row) (d : List Row) : Option (State Row) :=
  let s := { s with errors := [], warnings := [] }
  let n := d.length
  let numClasses := s.numClassValues.getD 0
  -- the `if not data_length: ... elif ... else` chain: (errors, size, repl)
  let branch : List SErr × Option Nat × Bool :=
    if n = 0 then ([SErr.no_data], none, true)
    else if s.sampling_type = FixedSize then
      ([], some s.sampleSizeNumber, s.replacement)
    else if s.sampling_type = FixedProportion then
      ([], some (ceilPct s.sampleSizePercentage n), false)
    else if s.sampling_type = CrossValidation then
      ((if n < s.number_of_folds then [SErr.too_many_folds] else []),
       none, true)
    else ([], none, true)          -- Bootstrap
  let (errs, size, repl) := branch
  let errs := errs ++
    (match repl, size with
     | false, some sz => if n < sz then [SErr.sample_larger_than_data] else []
     | _, _ => [])
  let errs := errs ++
    (if !repl && decide (n ≤ numClasses) && s.stratify
     then [SErr.not_enough_to_stratify] else [])
  if errs ≠ [] then some { s with errors := errs, indices := none }
  else
    let warns :=
      if s.sampling_type = FixedSize ∧ repl = true ∧ size.getD 0 ≠ 0 ∧
          n < size.getD 0
      then [SWarn.bigger_sample] else []
    let stratified := s.stratify && s.numClassValues.isSome
    match sampler stratified with
    | some v => some { s with warnings := warns, indices := some v }
    | none =>
      match sampler false with
      | some v =>
        some { s with warnings := warns ++ [SWarn.could_not_stratify],
                      indices := some v }
      | none => none

/-- `OWDataSampler.commit` for `None` or non-SQL data (see the Python source
quoted with the claim).  With no data it sends `None` on both channels;
otherwise it refreshes `indices` when they are stale (`None` or
non-deterministic sampling), **returns before sending anything** when they
are still `None`, and else slices the data and sends both parts.  Overall
`none` models an exception propagating out of `updateindices`. -/
def commit {Row : Type} (sampler : Bool → Option IndicesV)
    (s : State Row) : Option (State Row) :=
  match s.data with
  | none =>
    some { s with sampled_instances := none, remaining_instances := none,
                  out_data_sample := none, out_remaining_data := none }
  | some d =>
    (if s.indices = none ∨ s.use_seed = false
     then updateindices sampler s d else some s).bind fun s' =>
    match s'.indices with
    | none => some s'              -- `return` before the sends
    | some idx =>
      -- `remaining, sample = ...` per sampling type
      (if s'.sampling_type = FixedProportion ∨ s'.sampling_type = FixedSize ∨
          s'.sampling_type = Bootstrap then
        match idx with
        | .pair remaining sample => some (remaining, sample)
        | _ => none
      else if s'.sampling_type = CrossValidation then
        match idx with
        | .folds fs =>
          (fs.get? (s'.selectedFold - 1)).map fun fd =>
            if s'.compatibility_mode then (fd.1, fd.2) else (fd.2, fd.1)
        | _ => none
      else none).bind fun rs =>
      let sample := select d rs.2
      let other := select d rs.1
      some { s' with
              sampled_instances := some sample.length
              remaining_instances := some other.length
              out_data_sample := some sample
              out_remaining_data := some other }

end OWDataSampler

/-! ## Helper lemmas -/

/-- A list's length splits along a predicate and its pointwise complement. -/
theorem length_filter_add_length_filter_compl {α : Type} (l : List α)
    (p q : α → Bool) (h : ∀ x ∈ l, q x = !p x) :
    (l.filter p).length + (l.filter q).length = l.length := by
  induction l with
  | nil => simp
  | cons x xs ih =>
    have hx := h x (by simp)
    have hxs : ∀ y ∈ xs, q y = !p y := fun y hy => h y (by simp [hy])
    cases hp : p x <;> simp [List.filter_cons, hp, hx, ← ih hxs] <;> omega

/-- Membership in `whereEq`: exactly the in-range indices where the column
holds `v`. -/
theorem mem_whereEq {col : List Nat} {v i : Nat} :
    i ∈ OWOutliers.whereEq col v ↔ col.get? i = some v := by
  constructor
  · intro h
    rw [OWOutliers.whereEq, List.mem_filter] at h
    exact beq_iff_eq.mp h.2
  · intro h
    rw [OWOutliers.whereEq, List.mem_filter]
    refine ⟨List.mem_range.mpr ?_, beq_iff_eq.mpr h⟩
    by_contra hlt
    rw [List.get?_eq_none.mpr (Nat.le_of_not_lt hlt)] at h
    exact Option.noConfusion h

/-- `select` keeps one row per index when all indices are in range. -/
theorem length_select {Row : Type} (data : List Row) (ind : List Nat)
    (h : ∀ i ∈ ind, i < data.length) :
    (select data ind).length = ind.length := by
  simp only [select]
  simp
  intro j hj
  cases hx : data[j]? with
  | none => exact absurd (List.getElem?_eq_none_iff.mp hx) (Nat.not_le.mpr (h j hj))
  | some _ => rfl

/-- The `col == 1` and `col == 0` index sets partition the rows when the
column is 0/1-valued. -/
theorem whereEq_length_partition (col : List Nat)
    (hvals : ∀ v ∈ col, v = 0 ∨ v = 1) :
    (OWOutliers.whereEq col 1).length + (OWOutliers.whereEq col 0).length
      = col.length := by
  have h := length_filter_add_length_filter_compl (List.range col.length)
    (fun i => col.get? i == some 1) (fun i => col.get? i == some 0) ?_
  · simpa [OWOutliers.whereEq] using h
  · intro i hi
    rw [List.mem_range] at hi
    obtain ⟨a, ha⟩ := Option.isSome_iff_exists.mp
      (by simpa using List.get?_eq_get hi ▸ Option.isSome_some)
    have hmem := List.get?_mem ha
    rw [List.get?_eq_getElem?] at ha
    rcases hvals a hmem with rfl | rfl <;> simp [ha]

/-- An in-range `whereEq` index is an in-range row index. -/
theorem whereEq_lt_length {col : List Nat} {v i : Nat}
    (hi : i ∈ OWOutliers.whereEq col v) : i < col.length := by
  rw [mem_whereEq] at hi
  by_contra hle
  rw [List.get?_eq_none.mpr (Nat.le_of_not_lt hle)] at hi
  exact Option.noConfusion hi

/-- A callback sequence during which interruption is never observed finishes
without raising, advancing the poll counter once per invocation and emitting
one progress event per invocation. -/
theorem callbacks_not_interrupted (st : TaskState) (k : Nat)
    (calls : List (ℚ × String))
    (h : ∀ j, k ≤ j → j < k + calls.length →
      st.isInterruptionRequested j = false) :
    (OWOutliers.callbacks st k calls).2 = (k + calls.length, false) ∧
      OWOutliers.countProgress (OWOutliers.callbacks st k calls).1 =
        calls.length := by
  induction calls generalizing k with
  | nil => exact ⟨rfl, rfl⟩
  | cons c rest ih =>
    have hk : st.isInterruptionRequested k = false :=
      h k (Nat.le_refl k) (by simp)
    have ihr := ih (k + 1)
      (fun j hj hj' => h j (by omega) (by simp at hj' ⊢; omega))
    rcases hE : OWOutliers.callbacks st (k + 1) rest with ⟨evs', k', r'⟩
    rw [hE] at ihr
    obtain ⟨hkr, hc⟩ := ihr
    simp only [Prod.mk.injEq] at hkr
    constructor
    · simp only [OWOutliers.callbacks, OWOutliers.callback, hk, hE]
      simp [hkr.1, hkr.2, Prod.ext_iff]
      omega
    · simp only [OWOutliers.callbacks, OWOutliers.callback, hk, hE]
      by_cases hs : c.2 = "" <;>
        simp [OWOutliers.countProgress, List.countP_append,
          List.countP_cons, hs] <;>
        simp [OWOutliers.countProgress] at hc <;> omega

/-- A callback sequence reaching a poll at which interruption has been
requested raises there: the invocation that observes the request is the
last, so `t - k + 1` invocations happen and the rest of the sequence is
never run. -/
theorem callbacks_interrupted (st : TaskState) (t : Nat)
    (hreq : st.reqAt = some t) (k : Nat) (calls : List (ℚ × String))
    (hk : k ≤ t) (ht : t < k + calls.length) :
    (OWOutliers.callbacks st k calls).2 = (t + 1, true) ∧
      OWOutliers.countProgress (OWOutliers.callbacks st k calls).1 =
        t - k + 1 := by
  induction calls generalizing k with
  | nil => simp at ht; omega
  | cons c rest ih =>
    by_cases hkt : k = t
    · subst hkt
      have hk' : st.isInterruptionRequested k = true := by
        simp [TaskState.isInterruptionRequested, hreq]
      constructor
      · simp [OWOutliers.callbacks, OWOutliers.callback, hk']
      · by_cases hs : c.2 = "" <;>
          simp [OWOutliers.callbacks, OWOutliers.callback, hk',
            OWOutliers.countProgress, List.countP_cons, hs]
    · have hklt : k < t := Nat.lt_of_le_of_ne hk hkt
      have hkf : st.isInterruptionRequested k = false := by
        simp [TaskState.isInterruptionRequested, hreq]; omega
      have ihr := ih (k + 1) (by omega) (by simp at ht ⊢; omega)
      rcases hE : OWOutliers.callbacks st (k + 1) rest with ⟨evs', k', r'⟩
      rw [hE] at ihr
      obtain ⟨hkr, hc⟩ := ihr
      simp only [Prod.mk.injEq] at hkr
      constructor
      · simp only [OWOutliers.callbacks, OWOutliers.callback, hkf, hE]
        simp [hkr.1, hkr.2, Prod.ext_iff]
      · simp only [OWOutliers.callbacks, OWOutliers.callback, hkf, hE]
        by_cases hs : c.2 = "" <;>
          simp [OWOutliers.countProgress, List.countP_append,
            List.countP_cons, hs] <;>
          simp [OWOutliers.countProgress] at hc <;> omega

/-- **C8.** For a non-empty input table whose predicted outlier column is
0/1-valued, `run` (owoutliers.py) partitions the rows: `inliers` are exactly
the rows whose column value is 1, `outliers` exactly those with value 0, the
two index sets are disjoint, their sizes sum to the number of input rows, and
`annotated_data` is the full prediction table; for an empty input it returns
a `Results` whose three fields are all `None`. -/
theorem outliers_run_partitions {Row : Type} (data pred : List Row)
    (learnerCalls modelCalls : List (ℚ × String)) (col : List Nat)
    (hne : data ≠ []) (hlen : col.length = data.length)
    (hvals : ∀ v ∈ col, v = 0 ∨ v = 1) :
    (OWOutliers.run data learnerCalls modelCalls pred col TaskState.never).2 =
      some { inliers := some (select data (OWOutliers.whereEq col 1))
             outliers := some (select data (OWOutliers.whereEq col 0))
             annotated_data := some pred } ∧
    (∀ i, i ∈ OWOutliers.whereEq col 1 ↔ col.get? i = some 1) ∧
    (∀ i, i ∈ OWOutliers.whereEq col 0 ↔ col.get? i = some 0) ∧
    (∀ i, ¬(i ∈ OWOutliers.whereEq col 1 ∧ i ∈ OWOutliers.whereEq col 0)) ∧
    (select data (OWOutliers.whereEq col 1)).length +
      (select data (OWOutliers.whereEq col 0)).length = data.length ∧
    (∀ (st : TaskState) (lc mc : List (ℚ × String)) (pr : List Row)
        (c : List Nat),
      OWOutliers.run ([] : List Row) lc mc pr c st = ([], some {})) := by
  have hni : ∀ (k : Nat) (cs : List (ℚ × String)), ∀ j, k ≤ j →
      j < k + cs.length → TaskState.never.isInterruptionRequested j = false :=
    fun _ _ _ _ _ => rfl
  have hde : data.isEmpty = false := by
    cases data with
    | nil => exact absurd rfl hne
    | cons a l => rfl
  refine ⟨?_, fun i => mem_whereEq, fun i => mem_whereEq, ?_, ?_, ?_⟩
  · rcases hE0 : OWOutliers.callbacks TaskState.never 0
        [((0 : ℚ), "初始化...")] with ⟨e0, k0, r0⟩
    have h0 := (callbacks_not_interrupted TaskState.never 0
      [((0 : ℚ), "初始化...")] (hni 0 _)).1
    rw [hE0] at h0
    simp only [Prod.mk.injEq, List.length_cons, List.length_nil] at h0
    obtain ⟨rfl, rfl⟩ := h0
    rcases hE1 : OWOutliers.callbacks TaskState.never (0 + 1)
        learnerCalls with ⟨e1, k1, r1⟩
    have h1 := (callbacks_not_interrupted TaskState.never (0 + 1)
      learnerCalls (hni (0 + 1) _)).1
    rw [hE1] at h1
    simp only [Prod.mk.injEq] at h1
    obtain ⟨rfl, rfl⟩ := h1
    rcases hE2 : OWOutliers.callbacks TaskState.never
        (0 + 1 + learnerCalls.length) modelCalls with ⟨e2, k2, r2⟩
    have h2 := (callbacks_not_interrupted TaskState.never
      (0 + 1 + learnerCalls.length) modelCalls (hni _ _)).1
    rw [hE2] at h2
    simp only [Prod.mk.injEq] at h2
    obtain ⟨rfl, rfl⟩ := h2
    rcases hE3 : OWOutliers.callbacks TaskState.never
        (0 + 1 + learnerCalls.length + modelCalls.length)
        [((1 : ℚ), "")] with ⟨e3, k3, r3⟩
    have h3 := (callbacks_not_interrupted TaskState.never
      (0 + 1 + learnerCalls.length + modelCalls.length)
      [((1 : ℚ), "")] (hni _ _)).1
    rw [hE3] at h3
    simp only [Prod.mk.injEq, List.length_cons, List.length_nil] at h3
    obtain ⟨rfl, rfl⟩ := h3
    simp [OWOutliers.run, hde, hE0, hE1, hE2, hE3]
  · rintro i ⟨hi1, hi0⟩
    rw [mem_whereEq] at hi1 hi0
    rw [hi1] at hi0
    exact Option.noConfusion hi0 fun h => Nat.noConfusion h
  · rw [length_select data _ (fun i hi => hlen ▸ whereEq_lt_length hi),
      length_select data _ (fun i hi => hlen ▸ whereEq_lt_length hi),
      whereEq_length_partition col hvals, hlen]
  · intro st lc mc pr c
    rfl

/-- Witness for C8 at a concrete input: three rows, outlier column
`[1, 0, 1]` — the inliers are rows 0 and 2, the outlier is row 1. -/
theorem outliers_run_partitions_witness :
    (OWOutliers.run [10, 20, 30] [] [] [1, 2, 3] [1, 0, 1]
        TaskState.never).2 =
      some { inliers := some [10, 30]
             outliers := some [20]
             annotated_data := some [1, 2, 3] } :=
  (outliers_run_partitions [10, 20, 30] [1, 2, 3] [] [] [1, 0, 1]
    (by decide) (by decide) (by decide)).1

/-- A `Table`-or-`None` value is always acceptable on a `Table` channel. -/
theorem optTable_hasType (x : Option (List Nat)) :
    (optTable x).hasType ChanType.tableT = true := by
  cases x <;> rfl

/-- **C6.** Every value the widgets send on an output channel is `None` or an
instance of the channel's declared type: `OWDistances.on_done` sends only a
`DistMatrix` or `None` on its `distances` output, and `OWOutliers.on_done`
sends only `Table`s or `None` on `inliers`, `outliers` and `data`. -/
theorem typed_output_channels :
    (∀ result : Option Nat, ∀ p ∈ OWDistances.on_done result,
      p.2.hasType p.1 = true) ∧
    (∀ result : OWOutliers.Results Nat, ∀ p ∈ OWOutliers.on_done result,
      p.2.hasType p.1 = true) := by
  constructor
  · rintro (_ | m) p hp <;> simp [OWDistances.on_done] at hp <;>
      subst hp <;> rfl
  · rintro ⟨i, o, a⟩ p hp
    simp only [OWOutliers.on_done, List.mem_cons, List.mem_singleton,
      List.not_mem_nil, or_false] at hp
    rcases hp with rfl | rfl | rfl <;> exact optTable_hasType _

/-- **C1, counterexample.** Manifold embedding does *not* run on a background
task: with data present (and dense), `OWManifoldLearning.commit` performs no
`start(...)` at all — it computes `projector(data)` synchronously in the
commit handler and sends the result itself — and the widget does not mix in
`ConcurrentWidgetMixin`. -/
theorem manifold_commit_is_synchronous :
    (OWManifoldLearning.commitEffects true false none).filter
      Effect.isStart = [] ∧
    Effect.computeSync "projector(data)" ∈
      OWManifoldLearning.commitEffects true false none ∧
    Effect.send "transformed_data" ∈
      OWManifoldLearning.commitEffects true false none ∧
    OWManifoldLearning.usesConcurrentWidgetMixin = false := by
  refine ⟨rfl, ?_, ?_, rfl⟩ <;> simp [OWManifoldLearning.commitEffects]

/-- **C1, amended.** Outlier detection, distance-matrix computation and
FreeViz optimization are handed to the cancellable background executor: their
widgets mix in `ConcurrentWidgetMixin` and their commit/run handlers call
`start(task, ...)` and neither compute nor send results synchronously.
Manifold embedding is the exception: `OWManifoldLearning` has no
`ConcurrentWidgetMixin` and its `commit` never starts a task. -/
theorem background_task_handlers :
    OWOutliers.usesConcurrentWidgetMixin = true ∧
    Effect.startTask "run" ∈ OWOutliers.commitEffects ∧
    (OWOutliers.commitEffects.filter fun e => match e with
      | Effect.computeSync _ => true
      | Effect.send _ => true
      | _ => false) = [] ∧
    OWDistances.usesConcurrentWidgetMixin = true ∧
    (∀ fc : Option String,
      Effect.startTask "DistanceRunner.run" ∈ OWDistances.commitEffects fc) ∧
    (∀ fc : Option String,
      (OWDistances.commitEffects fc).filter (fun e => match e with
        | Effect.computeSync _ => true
        | Effect.send _ => true
        | _ => false) = []) ∧
    OWFreeViz.usesConcurrentWidgetMixin = true ∧
    Effect.startTask "run_freeviz" ∈ OWFreeViz.runEffects true ∧
    OWManifoldLearning.usesConcurrentWidgetMixin = false ∧
    (∀ (hd sp : Bool) (f : Option String),
      (OWManifoldLearning.commitEffects hd sp f).filter Effect.isStart
        = []) := by
  refine ⟨rfl, by simp [OWOutliers.commitEffects], rfl, rfl, ?_, ?_, rfl,
    by simp [OWFreeViz.runEffects], rfl, ?_⟩
  · rintro (_ | e) <;> simp [OWDistances.commitEffects]
  · rintro (_ | e) <;> rfl
  · rintro hd sp (_ | f) <;> cases hd <;> cases sp <;> rfl

/-- Witness for C1's amended claim: the distance widget's commit starts the
background task even when an input check failed (with `data = None`). -/
theorem background_task_handlers_witness :
    Effect.startTask "DistanceRunner.run" ∈
      OWDistances.commitEffects (some "dense_metric_sparse_data") :=
  background_task_handlers.2.2.2.2.1 (some "dense_metric_sparse_data")

/-- **C7.** `OWDistances.migrate_settings` rewrites any settings dictionary
saved under an older `settings_version` into the current schema (a
`metric_id` key; `metric_idx`/`normalized_dist` removed) while preserving the
configured choice: the pre-version-3 metric index 2 (Mahalanobis) maps to
index 9 and indices 3–9 shift down by one (so migrating from version 2
agrees with migrating the shifted index from version 3, and index 2 ends at
the `Mahalanobis` id); the pre-version-4 step with `normalized_dist=True`
upgrades exactly the Euclidean and Manhattan choices to their normalized
variants, every other choice keeping the id of the same metric.
`OWOutliers.migrate_settings` likewise moves the flat editor keys into the
`svm_editor`/`cov_editor` sub-dictionaries, preserving the stored values. -/
theorem settings_migration_preserves_choice :
    (∀ nd : Option Bool,
      OWDistances.migrate_settings ⟨some 2, nd, none⟩ 2 =
        OWDistances.migrate_settings ⟨some 9, nd, none⟩ 3) ∧
    OWDistances.migrate_settings ⟨some 2, some false, none⟩ 2 =
      some ⟨none, none, some OWDistances.Mahalanobis⟩ ∧
    (∀ i, 2 < i → i ≤ 9 → ∀ nd : Option Bool,
      OWDistances.migrate_settings ⟨some i, nd, none⟩ 2 =
        OWDistances.migrate_settings ⟨some (i - 1), nd, none⟩ 3) ∧
    (∀ i, i < 2 ∨ i = 10 → ∀ nd : Option Bool,
      OWDistances.migrate_settings ⟨some i, nd, none⟩ 2 =
        OWDistances.migrate_settings ⟨some i, nd, none⟩ 3) ∧
    (∀ i, i ≤ 10 →
      ∃ mid, OWDistances.migrate_settings ⟨some i, some false, none⟩ 3 =
          some ⟨none, none, some mid⟩ ∧
        OWDistances.migrate_settings ⟨some i, some true, none⟩ 3 =
          some ⟨none, none, some (OWDistances.normalizedVariant mid)⟩) ∧
    (∀ m, OWDistances.normalizedVariant m ≠ m →
      m = OWDistances.Euclidean ∨ m = OWDistances.Manhattan) ∧
    OWDistances.normalizedVariant OWDistances.Euclidean =
      OWDistances.EuclideanNormalized ∧
    OWDistances.normalizedVariant OWDistances.Manhattan =
      OWDistances.ManhattanNormalized ∧
    (∀ v, v < 4 → ∀ i, i ≤ 10 → ∀ nd : Option Bool,
      OWDistances.inCurrentSchema
        (OWDistances.migrate_settings ⟨some i, nd, none⟩ v) = true) ∧
    (∀ s : OWOutliers.OSettings, ∀ v, v < 2 →
      (OWOutliers.migrate_settings s v).svm_editor =
          some (s.nu.getD 50, s.gamma.getD (1 / 100)) ∧
      (OWOutliers.migrate_settings s v).cov_editor =
          some (s.cont.getD 10, s.empirical_covariance.getD false,
                s.support_fraction.getD 1)) := by
  refine ⟨by decide, by decide, ?_, ?_, ?_, ?_, rfl, rfl, ?_, ?_⟩
  · intro i h1 h2
    interval_cases i <;> decide
  · rintro i (h | rfl)
    · interval_cases i <;> decide
    · decide
  · intro i hi
    interval_cases i <;> exact ⟨_, rfl, rfl⟩
  · intro m h
    by_cases h1 : m = OWDistances.Euclidean
    · exact Or.inl h1
    by_cases h2 : m = OWDistances.Manhattan
    · exact Or.inr h2
    exact absurd (by simp [OWDistances.normalizedVariant, h1, h2]) h
  · intro v hv i hi
    interval_cases v <;> interval_cases i <;> decide
  · intro s v hv
    rw [OWOutliers.migrate_settings, if_pos hv]
    exact ⟨rfl, rfl⟩

/-- Witness for C7: pre-version-3 index 4 (shifted to 3) migrated from
version 2 agrees with index 3 migrated from version 3. -/
theorem settings_migration_preserves_choice_witness :
    OWDistances.migrate_settings ⟨some 4, some true, none⟩ 2 =
      OWDistances.migrate_settings ⟨some 3, some true, none⟩ 3 :=
  settings_migration_preserves_choice.2.2.1 4 (by decide) (by decide)
    (some true)

/-- `countProgress` adds over concatenated traces. -/
theorem countProgress_append (a b : List OWOutliers.Ev) :
    OWOutliers.countProgress (a ++ b) =
      OWOutliers.countProgress a + OWOutliers.countProgress b :=
  List.countP_append _ _ _

/-- `partials` distributes over concatenated traces. -/
theorem partials_append {A : Type} (a b : List (OWFreeViz.Ev A)) :
    OWFreeViz.partials (a ++ b) =
      OWFreeViz.partials a ++ OWFreeViz.partials b :=
  List.filterMap_append _ _ _

/-- Unfolding the loop body when the convergence test succeeds: the freshly
copied projection is delivered, then the loop returns it. -/
theorem freeviz_loop_converged {A : Type} (stepf : A → A)
    (near : A → A → Bool) (st : TaskState) (a : A) (step fuel : Nat)
    (hnear : near a (stepf a) = true) :
    OWFreeViz.loop stepf near st a step (fuel + 1) =
      ([OWFreeViz.Ev.partialResult
          ⟨stepf a, some (OWFreeViz.copyModel (stepf a))⟩],
       some ⟨stepf a, some (OWFreeViz.copyModel (stepf a))⟩) := by
  simp [OWFreeViz.loop, hnear]

/-- Unfolding the loop body when the convergence test fails and the poll after
the step-counter increment observes an interruption request: the loop reports
progress and returns the result computed so far. -/
theorem freeviz_loop_stop {A : Type} (stepf : A → A)
    (near : A → A → Bool) (st : TaskState) (a : A) (step fuel : Nat)
    (hnear : near a (stepf a) = false)
    (hint : st.isInterruptionRequested (step + 1) = true) :
    OWFreeViz.loop stepf near st a step (fuel + 1) =
      ([OWFreeViz.Ev.partialResult
          ⟨stepf a, some (OWFreeViz.copyModel (stepf a))⟩,
        OWFreeViz.Ev.progress
          ((100 * (step + 1) : ℚ) / OWFreeViz.MAX_ITERATIONS)],
       some ⟨stepf a, some (OWFreeViz.copyModel (stepf a))⟩) := by
  simp [OWFreeViz.loop, hnear, hint]

/-- Unfolding the loop body when the convergence test fails and no
interruption is observed: the loop recurses on the new anchors. -/
theorem freeviz_loop_cont {A : Type} (stepf : A → A)
    (near : A → A → Bool) (st : TaskState) (a : A) (step fuel : Nat)
    (hnear : near a (stepf a) = false)
    (hint : st.isInterruptionRequested (step + 1) = false) :
    OWFreeViz.loop stepf near st a step (fuel + 1) =
      (OWFreeViz.Ev.partialResult
          ⟨stepf a, some (OWFreeViz.copyModel (stepf a))⟩ ::
        OWFreeViz.Ev.progress
          ((100 * (step + 1) : ℚ) / OWFreeViz.MAX_ITERATIONS) ::
        (OWFreeViz.loop stepf near st (stepf a) (step + 1) fuel).1,
       (OWFreeViz.loop stepf near st (stepf a) (step + 1) fuel).2) := by
  rcases hE : OWFreeViz.loop stepf near st (stepf a) (step + 1) fuel
    with ⟨evs, r⟩
  simp [OWFreeViz.loop, hnear, hint, hE]

/-- A non-converging `run_freeviz` loop whose interruption is requested from
poll `t` on stops right after the `t`-th poll: the result is the `t - step`-th
iterate (the work done so far, nothing further), one partial result was
delivered per iteration, and the last reported progress value is
`100 * t / MAX_ITERATIONS`. -/
theorem freeviz_loop_interrupted {A : Type} (stepf : A → A)
    (near : A → A → Bool) (st : TaskState) (t : Nat)
    (hnear : ∀ a b, near a b = false) (hreq : st.reqAt = some t) :
    ∀ fuel step a, step < t → t ≤ step + fuel →
      (OWFreeViz.loop stepf near st a step fuel).2 =
        some { projector := stepf^[t - step] a
               projection := some (stepf^[t - step] a) } ∧
      (OWFreeViz.partials
        (OWFreeViz.loop stepf near st a step fuel).1).length = t - step ∧
      OWFreeViz.Ev.progress ((100 * t : ℚ) / OWFreeViz.MAX_ITERATIONS) ∈
        (OWFreeViz.loop stepf near st a step fuel).1 := by
  intro fuel
  induction fuel with
  | zero => intro step a h1 h2; omega
  | succ fuel ih =>
    intro step a h1 h2
    by_cases hstop : t = step + 1
    · have hint : st.isInterruptionRequested (step + 1) = true := by
        simp [TaskState.isInterruptionRequested, hreq]; omega
      have hts : t - step = 1 := by omega
      rw [freeviz_loop_stop stepf near st a step fuel (hnear a _) hint]
      refine ⟨?_, ?_, ?_⟩ <;>
        simp [OWFreeViz.partials, OWFreeViz.copyModel, hts,
          Function.iterate_one, hstop]
    · have hint : st.isInterruptionRequested (step + 1) = false := by
        simp [TaskState.isInterruptionRequested, hreq]; omega
      obtain ⟨ihr, ihp, ihm⟩ := ih (step + 1) (stepf a) (by omega) (by omega)
      have harr : stepf^[t - (step + 1)] (stepf a) = stepf^[t - step] a := by
        rw [← Function.iterate_succ_apply]
        congr 1
        omega
      rw [freeviz_loop_cont stepf near st a step fuel (hnear a _) hint]
      refine ⟨?_, ?_, ?_⟩
      · rw [ihr, harr]
      · simp only [OWFreeViz.partials, List.filterMap_cons] at ihp ⊢
        simp at ihp ⊢
        omega
      · simp only [List.mem_cons]
        exact Or.inr (Or.inr ihm)

/-- The loop exits only through the convergence test or through an observed
interruption request: any returned result is the `n`-th iterate for some
`1 ≤ n ≤ fuel` such that the `n`-th pass either satisfied `np.allclose`
against the previous anchors or observed an interruption at its poll. -/
theorem freeviz_loop_exit {A : Type} (stepf : A → A) (near : A → A → Bool)
    (st : TaskState) :
    ∀ fuel step a r, (OWFreeViz.loop stepf near st a step fuel).2 = some r →
      ∃ n, 1 ≤ n ∧ n ≤ fuel ∧ r.projector = stepf^[n] a ∧
        (near (stepf^[n - 1] a) (stepf^[n] a) = true ∨
          st.isInterruptionRequested (step + n) = true) := by
  intro fuel
  induction fuel with
  | zero => intro step a r hr; exact absurd hr (by simp [OWFreeViz.loop])
  | succ fuel ih =>
    intro step a r hr
    by_cases hn : near a (stepf a) = true
    · rw [freeviz_loop_converged stepf near st a step fuel hn] at hr
      simp only [Option.some.injEq] at hr
      refine ⟨1, Nat.le_refl 1, by omega, ?_, Or.inl ?_⟩
      · rw [← hr]
        simp [OWFreeViz.copyModel]
      · simpa [Function.iterate_one] using hn
    · have hn' : near a (stepf a) = false := by
        cases h : near a (stepf a)
        · rfl
        · exact absurd h hn
      by_cases hi : st.isInterruptionRequested (step + 1) = true
      · rw [freeviz_loop_stop stepf near st a step fuel hn' hi] at hr
        simp only [Option.some.injEq] at hr
        refine ⟨1, Nat.le_refl 1, by omega, ?_, Or.inr ?_⟩
        · rw [← hr]
          simp [OWFreeViz.copyModel]
        · exact hi
      · have hi' : st.isInterruptionRequested (step + 1) = false := by
          cases h : st.isInterruptionRequested (step + 1)
          · rfl
          · exact absurd h hi
        rw [freeviz_loop_cont stepf near st a step fuel hn' hi'] at hr
        simp only at hr
        obtain ⟨n, hn1, hnf, hproj, hcase⟩ := ih (step + 1) (stepf a) r hr
        refine ⟨n + 1, by omega, by omega, ?_, ?_⟩
        · rw [hproj, ← Function.iterate_succ_apply]
        · rcases hcase with hc | hc
          · left
            have h1 : stepf^[n + 1 - 1] a = stepf^[n - 1] (stepf a) := by
              rw [← Function.iterate_succ_apply]
              congr 1
              omega
            have h2 : stepf^[n + 1] a = stepf^[n] (stepf a) := by
              rw [← Function.iterate_succ_apply]
            rw [h1, h2]
            exact hc
          · right
            have : step + (n + 1) = step + 1 + n := by omega
            rw [this]
            exact hc

/-- Without convergence and without an interruption request, the loop never
exits: the step counter and `MAX_ITERATIONS` do not terminate it, so it runs
past any bound. -/
theorem freeviz_loop_no_exit {A : Type} (stepf : A → A)
    (near : A → A → Bool) (st : TaskState)
    (hnear : ∀ a b, near a b = false) (hreq : st.reqAt = none) :
    ∀ fuel step a, (OWFreeViz.loop stepf near st a step fuel).2 = none := by
  intro fuel
  induction fuel with
  | zero => intro step a; simp [OWFreeViz.loop]
  | succ fuel ih =>
    intro step a
    have hint : st.isInterruptionRequested (step + 1) = false := by
      simp [TaskState.isInterruptionRequested, hreq]
    rw [freeviz_loop_cont stepf near st a step fuel (hnear a _) hint]
    exact ih (step + 1) (stepf a)

/-- `partials` computation rules. -/
theorem partials_cons_partialResult {A : Type} (r : OWFreeViz.Result A)
    (l : List (OWFreeViz.Ev A)) :
    OWFreeViz.partials (OWFreeViz.Ev.partialResult r :: l) =
      r :: OWFreeViz.partials l := by
  simp [OWFreeViz.partials]

/-- Progress events carry no partial result. -/
theorem partials_cons_progress {A : Type} (v : ℚ)
    (l : List (OWFreeViz.Ev A)) :
    OWFreeViz.partials (OWFreeViz.Ev.progress v :: l) =
      OWFreeViz.partials l := by
  simp [OWFreeViz.partials]

/-- Status events carry no partial result. -/
theorem partials_cons_status {A : Type} (s : String)
    (l : List (OWFreeViz.Ev A)) :
    OWFreeViz.partials (OWFreeViz.Ev.status s :: l) =
      OWFreeViz.partials l := by
  simp [OWFreeViz.partials]

/-- The last element survives a `cons`. -/
theorem getLast?_cons_of_getLast? {α : Type} (x : α) {l : List α} {r : α}
    (h : l.getLast? = some r) : (x :: l).getLast? = some r := by
  cases l with
  | nil => simp at h
  | cons y ys => rw [List.getLast?_cons_cons]; exact h

/-- Whatever the loop returns was (last) delivered through
`set_partial_result` before the return. -/
theorem freeviz_result_is_last_partial {A : Type} (stepf : A → A)
    (near : A → A → Bool) (st : TaskState) :
    ∀ fuel step a r, (OWFreeViz.loop stepf near st a step fuel).2 = some r →
      (OWFreeViz.partials
        (OWFreeViz.loop stepf near st a step fuel).1).getLast? = some r := by
  intro fuel
  induction fuel with
  | zero => intro step a r hr; exact absurd hr (by simp [OWFreeViz.loop])
  | succ fuel ih =>
    intro step a r hr
    by_cases hn : near a (stepf a) = true
    · rw [freeviz_loop_converged stepf near st a step fuel hn] at hr ⊢
      simp only [Option.some.injEq] at hr
      simp [OWFreeViz.partials, hr]
    · have hn' : near a (stepf a) = false := by
        cases h : near a (stepf a)
        · rfl
        · exact absurd h hn
      by_cases hi : st.isInterruptionRequested (step + 1) = true
      · rw [freeviz_loop_stop stepf near st a step fuel hn' hi] at hr ⊢
        simp only [Option.some.injEq] at hr
        simp [OWFreeViz.partials, hr]
      · have hi' : st.isInterruptionRequested (step + 1) = false := by
          cases h : st.isInterruptionRequested (step + 1)
          · rfl
          · exact absurd h hi
        rw [freeviz_loop_cont stepf near st a step fuel hn' hi'] at hr ⊢
        simp only at hr
        have ihl := ih (step + 1) (stepf a) r hr
        rw [partials_cons_partialResult, partials_cons_progress]
        exact getLast?_cons_of_getLast? _ ihl

/-- Every partial result the loop delivers carries the `.copy()` of the
projector state it was built from. -/
theorem freeviz_partials_are_copies {A : Type} (stepf : A → A)
    (near : A → A → Bool) (st : TaskState) :
    ∀ fuel step a,
      ∀ r ∈ OWFreeViz.partials
        (OWFreeViz.loop stepf near st a step fuel).1,
      r.projection = some (OWFreeViz.copyModel r.projector) := by
  intro fuel
  induction fuel with
  | zero => intro step a r hr; simp [OWFreeViz.loop, OWFreeViz.partials] at hr
  | succ fuel ih =>
    intro step a r hr
    by_cases hn : near a (stepf a) = true
    · rw [freeviz_loop_converged stepf near st a step fuel hn] at hr
      simp [OWFreeViz.partials] at hr
      rw [hr]
    · have hn' : near a (stepf a) = false := by
        cases h : near a (stepf a)
        · rfl
        · exact absurd h hn
      by_cases hi : st.isInterruptionRequested (step + 1) = true
      · rw [freeviz_loop_stop stepf near st a step fuel hn' hi] at hr
        simp [OWFreeViz.partials] at hr
        rw [hr]
      · have hi' : st.isInterruptionRequested (step + 1) = false := by
          cases h : st.isInterruptionRequested (step + 1)
          · rfl
          · exact absurd h hi
        rw [freeviz_loop_cont stepf near st a step fuel hn' hi'] at hr
        simp only [OWFreeViz.partials, List.filterMap_cons] at hr
        simp only [List.mem_cons] at hr
        rcases hr with rfl | hr
        · rfl
        · exact ih (step + 1) (stepf a) r hr

/-- In every pass the first event is the partial-result delivery: it precedes
the convergence check, the progress report and the interruption poll. -/
theorem freeviz_head_partial {A : Type} (stepf : A → A)
    (near : A → A → Bool) (st : TaskState) (a : A) (step fuel : Nat)
    (hfuel : 1 ≤ fuel) :
    (OWFreeViz.loop stepf near st a step fuel).1.head? =
      some (OWFreeViz.Ev.partialResult
        ⟨stepf a, some (OWFreeViz.copyModel (stepf a))⟩) := by
  cases fuel with
  | zero => omega
  | succ fuel =>
    by_cases hn : near a (stepf a) = true
    · rw [freeviz_loop_converged stepf near st a step fuel hn]
      rfl
    · have hn' : near a (stepf a) = false := by
        cases h : near a (stepf a)
        · rfl
        · exact absurd h hn
      by_cases hi : st.isInterruptionRequested (step + 1) = true
      · rw [freeviz_loop_stop stepf near st a step fuel hn' hi]
        rfl
      · have hi' : st.isInterruptionRequested (step + 1) = false := by
          cases h : st.isInterruptionRequested (step + 1)
          · rfl
          · exact absurd h hi
        rw [freeviz_loop_cont stepf near st a step fuel hn' hi']
        rfl

/-- Unfolding `isInterruptionRequested` for a request arriving at poll `t`. -/
theorem isInterruptionRequested_some (t j : Nat) :
    (⟨some t⟩ : TaskState).isInterruptionRequested j = decide (t ≤ j) := rfl

/-- A distance-metric callback run during which interruption is never
observed finishes without raising. -/
theorem dist_callbacks_not_interrupted (st : TaskState) (k : Nat)
    (calls : List ℚ)
    (h : ∀ j, k ≤ j → j < k + calls.length →
      st.isInterruptionRequested j = false) :
    (OWDistances.callbacks st k calls).2 = (k + calls.length, false) ∧
      OWDistances.countProgress (OWDistances.callbacks st k calls).1 =
        calls.length := by
  induction calls generalizing k with
  | nil => exact ⟨rfl, rfl⟩
  | cons c rest ih =>
    have hk : st.isInterruptionRequested k = false :=
      h k (Nat.le_refl k) (by simp)
    have ihr := ih (k + 1)
      (fun j hj hj' => h j (by omega) (by simp at hj' ⊢; omega))
    rcases hE : OWDistances.callbacks st (k + 1) rest with ⟨evs', k', r'⟩
    rw [hE] at ihr
    obtain ⟨hkr, hc⟩ := ihr
    simp only [Prod.mk.injEq] at hkr
    constructor
    · simp only [OWDistances.callbacks, hk, hE]
      simp [hkr.1, hkr.2, Prod.ext_iff]
      omega
    · simp only [OWDistances.callbacks, hk, hE]
      simp [OWDistances.countProgress, List.countP_cons] at hc ⊢
      omega

/-- A distance-metric callback run that reaches a poll with interruption
requested raises `InterruptException` there, after `t - k + 1` invocations. -/
theorem dist_callbacks_interrupted (st : TaskState) (t : Nat)
    (hreq : st.reqAt = some t) (k : Nat) (calls : List ℚ)
    (hk : k ≤ t) (ht : t < k + calls.length) :
    (OWDistances.callbacks st k calls).2 = (t + 1, true) ∧
      OWDistances.countProgress (OWDistances.callbacks st k calls).1 =
        t - k + 1 := by
  induction calls generalizing k with
  | nil => simp at ht; omega
  | cons c rest ih =>
    by_cases hkt : k = t
    · subst hkt
      have hk' : st.isInterruptionRequested k = true := by
        simp [TaskState.isInterruptionRequested, hreq]
      constructor
      · simp [OWDistances.callbacks, hk']
      · simp [OWDistances.callbacks, hk', OWDistances.countProgress,
          List.countP_cons]
    · have hklt : k < t := Nat.lt_of_le_of_ne hk hkt
      have hkf : st.isInterruptionRequested k = false := by
        simp [TaskState.isInterruptionRequested, hreq]; omega
      have ihr := ih (k + 1) (by omega) (by simp at ht ⊢; omega)
      rcases hE : OWDistances.callbacks st (k + 1) rest with ⟨evs', k', r'⟩
      rw [hE] at ihr
      obtain ⟨hkr, hc⟩ := ihr
      simp only [Prod.mk.injEq] at hkr
      constructor
      · simp only [OWDistances.callbacks, hkf, hE]
        simp [hkr.1, hkr.2, Prod.ext_iff]
      · simp only [OWDistances.callbacks, hkf, hE]
        simp [OWDistances.countProgress, List.countP_cons] at hc ⊢
        omega

/-- `DistanceRunner.run` on present data with interruption requested from
poll `t < |calls|`: the `InterruptException` escapes (`none`), after exactly
`t + 1` callback invocations — the metric computation goes no further. -/
theorem distances_run_interrupted {Dat DMat : Type} (d : Dat)
    (metricFn : Dat → Bool → DMat) (sn nd : Bool) (calls : List ℚ)
    (t : Nat) (ht : t < calls.length) :
    (DistanceRunner.run (some d) metricFn sn nd calls ⟨some t⟩).2 = none ∧
      OWDistances.countProgress
        (DistanceRunner.run (some d) metricFn sn nd calls ⟨some t⟩).1 =
          t + 1 := by
  rcases hE : OWDistances.callbacks ⟨some t⟩ 0 calls with ⟨e1, k1, r1⟩
  have h := dist_callbacks_interrupted ⟨some t⟩ t rfl 0 calls
    (Nat.zero_le t) (by omega)
  rw [hE] at h
  obtain ⟨hkr, hcnt⟩ := h
  simp only [Prod.mk.injEq] at hkr
  obtain ⟨rfl, rfl⟩ := hkr
  constructor
  · simp [DistanceRunner.run, hE]
  · simp only [OWDistances.countProgress] at hcnt
    simp [DistanceRunner.run, hE, OWDistances.countProgress,
      List.countP_cons, hcnt]

/-- `run` (owoutliers.py) with interruption requested from poll `t`, `t`
within the run's checkpoint count: the exception escapes (`none`) after
exactly `t + 1` callback invocations — once the request is observed, neither
the rest of the training/prediction callbacks nor the final callback run. -/
theorem outliers_run_interrupted {Row : Type} (data pred : List Row)
    (lc mc : List (ℚ × String)) (col : List Nat) (t : Nat)
    (hne : data ≠ []) (ht : t < 2 + lc.length + mc.length) :
    (OWOutliers.run data lc mc pred col ⟨some t⟩).2 = none ∧
      OWOutliers.countProgress
        (OWOutliers.run data lc mc pred col ⟨some t⟩).1 = t + 1 := by
  have hde : data.isEmpty = false := by
    cases data with
    | nil => exact absurd rfl hne
    | cons a l => rfl
  by_cases h0 : t = 0
  · subst h0
    rcases hE0 : OWOutliers.callbacks ⟨some 0⟩ 0 [((0 : ℚ), "初始化...")]
      with ⟨e0, k0, r0⟩
    have h := callbacks_interrupted ⟨some 0⟩ 0 rfl 0
      [((0 : ℚ), "初始化...")] (Nat.le_refl 0) (by simp)
    rw [hE0] at h
    obtain ⟨hkr, hcnt⟩ := h
    simp only [Prod.mk.injEq] at hkr
    obtain ⟨rfl, rfl⟩ := hkr
    simp only [OWOutliers.countProgress] at hcnt
    constructor
    · simp [OWOutliers.run, hde, hE0]
    · simp [OWOutliers.run, hde, hE0, OWOutliers.countProgress, hcnt]
  · have h0' : 1 ≤ t := by omega
    rcases hE0 : OWOutliers.callbacks ⟨some t⟩ 0 [((0 : ℚ), "初始化...")]
      with ⟨e0, k0, r0⟩
    have h := callbacks_not_interrupted ⟨some t⟩ 0 [((0 : ℚ), "初始化...")]
      (by
        intro j hj hj'
        simp only [List.length_cons, List.length_nil] at hj'
        rw [isInterruptionRequested_some]
        simp
        omega)
    rw [hE0] at h
    obtain ⟨hkr, hcnt0⟩ := h
    simp only [Prod.mk.injEq, List.length_cons, List.length_nil,
      Nat.zero_add] at hkr
    obtain ⟨rfl, rfl⟩ := hkr
    simp only [OWOutliers.countProgress, List.length_cons,
      List.length_nil] at hcnt0
    by_cases h1 : t < 1 + lc.length
    · rcases hE1 : OWOutliers.callbacks ⟨some t⟩ 1 lc with ⟨e1, k1, r1⟩
      have h := callbacks_interrupted ⟨some t⟩ t rfl 1 lc h0' (by omega)
      rw [hE1] at h
      obtain ⟨hkr, hcnt1⟩ := h
      simp only [Prod.mk.injEq] at hkr
      obtain ⟨rfl, rfl⟩ := hkr
      simp only [OWOutliers.countProgress] at hcnt1
      constructor
      · simp [OWOutliers.run, hde, hE0, hE1]
      · simp [OWOutliers.run, hde, hE0, hE1, OWOutliers.countProgress,
          List.countP_append, hcnt0, hcnt1]
        omega
    · rcases hE1 : OWOutliers.callbacks ⟨some t⟩ 1 lc with ⟨e1, k1, r1⟩
      have h := callbacks_not_interrupted ⟨some t⟩ 1 lc
        (by
          intro j hj hj'
          rw [isInterruptionRequested_some]
          simp
          omega)
      rw [hE1] at h
      obtain ⟨hkr, hcnt1⟩ := h
      simp only [Prod.mk.injEq] at hkr
      obtain ⟨rfl, rfl⟩ := hkr
      simp only [OWOutliers.countProgress] at hcnt1
      by_cases h2 : t < 1 + lc.length + mc.length
      · rcases hE2 : OWOutliers.callbacks ⟨some t⟩ (1 + lc.length) mc
          with ⟨e2, k2, r2⟩
        have h := callbacks_interrupted ⟨some t⟩ t rfl (1 + lc.length) mc
          (by omega) (by omega)
        rw [hE2] at h
        obtain ⟨hkr, hcnt2⟩ := h
        simp only [Prod.mk.injEq] at hkr
        obtain ⟨rfl, rfl⟩ := hkr
        simp only [OWOutliers.countProgress] at hcnt2
        constructor
        · simp [OWOutliers.run, hde, hE0, hE1, hE2]
        · simp [OWOutliers.run, hde, hE0, hE1, hE2,
            OWOutliers.countProgress, List.countP_append,
            hcnt0, hcnt1, hcnt2]
          omega
      · have h3 : t = 1 + lc.length + mc.length := by omega
        rcases hE2 : OWOutliers.callbacks ⟨some t⟩ (1 + lc.length) mc
          with ⟨e2, k2, r2⟩
        have h := callbacks_not_interrupted ⟨some t⟩ (1 + lc.length) mc
          (by
            intro j hj hj'
            rw [isInterruptionRequested_some]
            simp
            omega)
        rw [hE2] at h
        obtain ⟨hkr, hcnt2⟩ := h
        simp only [Prod.mk.injEq] at hkr
        obtain ⟨rfl, rfl⟩ := hkr
        simp only [OWOutliers.countProgress] at hcnt2
        rcases hE3 : OWOutliers.callbacks ⟨some t⟩
            (1 + lc.length + mc.length) [((1 : ℚ), "")]
          with ⟨e3, k3, r3⟩
        have h := callbacks_interrupted ⟨some t⟩ t rfl
          (1 + lc.length + mc.length) [((1 : ℚ), "")] (by omega) (by simp; omega)
        rw [hE3] at h
        obtain ⟨hkr, hcnt3⟩ := h
        simp only [Prod.mk.injEq] at hkr
        obtain ⟨rfl, rfl⟩ := hkr
        simp only [OWOutliers.countProgress] at hcnt3
        constructor
        · simp [OWOutliers.run, hde, hE0, hE1, hE2, hE3]
        · simp [OWOutliers.run, hde, hE0, hE1, hE2, hE3,
            OWOutliers.countProgress, List.countP_append,
            hcnt0, hcnt1, hcnt2, hcnt3]
          omega

/-- **C2.** Cancellation is cooperative: whenever interruption has been
requested by the time a progress checkpoint (callback poll) is reached, the
task function performs no further computation step.  The outliers' `run`
raises from its callback (`none`, with exactly `t + 1` callback invocations);
`DistanceRunner.run` raises `InterruptException` from its callback (`none`,
with exactly `t + 1` invocations); `run_freeviz` returns the result computed
so far — the `t`-th iterate, with no further optimization pass — instead of
starting another iteration. -/
theorem cooperative_cancellation :
    (∀ (Row : Type) (data pred : List Row) (lc mc : List (ℚ × String))
        (col : List Nat) (t : Nat), data ≠ [] →
      t < 2 + lc.length + mc.length →
      (OWOutliers.run data lc mc pred col ⟨some t⟩).2 = none ∧
      OWOutliers.countProgress
        (OWOutliers.run data lc mc pred col ⟨some t⟩).1 = t + 1) ∧
    (∀ (Dat DMat : Type) (d : Dat) (metricFn : Dat → Bool → DMat)
        (sn nd : Bool) (calls : List ℚ) (t : Nat), t < calls.length →
      (DistanceRunner.run (some d) metricFn sn nd calls ⟨some t⟩).2 = none ∧
      OWDistances.countProgress
        (DistanceRunner.run (some d) metricFn sn nd calls ⟨some t⟩).1 =
          t + 1) ∧
    (∀ (A : Type) (stepf : A → A) (near : A → A → Bool) (a : A)
        (t fuel : Nat), (∀ x y, near x y = false) → 1 ≤ t → t ≤ fuel →
      (OWFreeViz.run_freeviz stepf near a ⟨some t⟩ fuel).2 =
        some { projector := stepf^[t] a
               projection := some (stepf^[t] a) } ∧
      (OWFreeViz.partials
        (OWFreeViz.run_freeviz stepf near a ⟨some t⟩ fuel).1).length
          = t) := by
  refine ⟨fun Row data pred lc mc col t hne ht =>
      outliers_run_interrupted data pred lc mc col t hne ht,
    fun Dat DMat d metricFn sn nd calls t ht =>
      distances_run_interrupted d metricFn sn nd calls t ht, ?_⟩
  intro A stepf near a t fuel hnear h1 h2
  have h := freeviz_loop_interrupted stepf near ⟨some t⟩ t hnear rfl fuel 0 a
    (by omega) (by omega)
  rcases hE : OWFreeViz.loop stepf near ⟨some t⟩ a 0 fuel with ⟨evs, r⟩
  rw [hE] at h
  obtain ⟨hr, hp, _⟩ := h
  simp only [Nat.sub_zero] at hr hp
  constructor
  · simpa [OWFreeViz.run_freeviz, hE] using hr
  · simp [OWFreeViz.run_freeviz, hE, partials_cons_status]
    simpa using hp

/-- Witness for C2: a three-checkpoint distance computation interrupted at
the second poll raises out of `DistanceRunner.run`. -/
theorem cooperative_cancellation_witness :
    (DistanceRunner.run (some 0) (fun (_ : Nat) (_ : Bool) => (0 : Nat))
        false false [0, 1/2, 1] ⟨some 1⟩).2 = none :=
  (cooperative_cancellation.2.1 Nat Nat 0 (fun _ _ => 0) false false
    [0, 1/2, 1] 1 (by decide)).1

/-- **C4.** FreeViz streams partial results: every optimization pass first
delivers the current projection — built with `.copy()` from the projector
state — via `set_partial_result`, before the convergence check, the progress
report and the interruption poll; whatever the task returns was the last
partial result delivered; a non-converging interrupted run delivers one
partial result per iteration; and the widget's `on_partial_result` installs
the delivered projector/projection pair as its current state. -/
theorem freeviz_partial_result_streaming :
    (∀ (A : Type) (stepf : A → A) (near : A → A → Bool) (st : TaskState)
        (a : A) (step fuel : Nat), 1 ≤ fuel →
      (OWFreeViz.loop stepf near st a step fuel).1.head? =
        some (OWFreeViz.Ev.partialResult
          ⟨stepf a, some (OWFreeViz.copyModel (stepf a))⟩)) ∧
    (∀ (A : Type) (stepf : A → A) (near : A → A → Bool) (st : TaskState)
        (fuel step : Nat) (a : A),
      ∀ r ∈ OWFreeViz.partials
        (OWFreeViz.loop stepf near st a step fuel).1,
      r.projection = some (OWFreeViz.copyModel r.projector)) ∧
    (∀ (A : Type) (stepf : A → A) (near : A → A → Bool) (st : TaskState)
        (fuel step : Nat) (a : A) (r : OWFreeViz.Result A),
      (OWFreeViz.loop stepf near st a step fuel).2 = some r →
      (OWFreeViz.partials
        (OWFreeViz.loop stepf near st a step fuel).1).getLast? = some r) ∧
    (∀ (A : Type) (stepf : A → A) (near : A → A → Bool) (a : A)
        (t fuel : Nat), (∀ x y, near x y = false) → 1 ≤ t → t ≤ fuel →
      (OWFreeViz.partials
        (OWFreeViz.run_freeviz stepf near a ⟨some t⟩ fuel).1).length = t) ∧
    (∀ (A : Type) (w : OWFreeViz.Widget A) (r : OWFreeViz.Result A),
      (OWFreeViz.on_partial_result w r).projector = some r.projector ∧
      (OWFreeViz.on_partial_result w r).projection = r.projection) := by
  refine ⟨fun A stepf near st a step fuel h =>
      freeviz_head_partial stepf near st a step fuel h,
    fun A stepf near st fuel step a =>
      freeviz_partials_are_copies stepf near st fuel step a,
    fun A stepf near st fuel step a r h =>
      freeviz_result_is_last_partial stepf near st fuel step a r h,
    ?_, fun A w r => ⟨rfl, rfl⟩⟩
  intro A stepf near a t fuel hnear h1 h2
  have h := freeviz_loop_interrupted stepf near ⟨some t⟩ t hnear rfl fuel 0 a
    (by omega) (by omega)
  rcases hE : OWFreeViz.loop stepf near ⟨some t⟩ a 0 fuel with ⟨evs, r⟩
  rw [hE] at h
  obtain ⟨_, hp, _⟩ := h
  simp only [Nat.sub_zero] at hp
  simp [OWFreeViz.run_freeviz, hE, partials_cons_status]
  simpa using hp

/-- Witness for C4: on a concrete two-iteration interrupted run the widget
receives a partial result stream with one entry per iteration. -/
theorem freeviz_partial_result_streaming_witness :
    (OWFreeViz.partials
      (OWFreeViz.run_freeviz Nat.succ (fun _ _ => false) 0
        ⟨some 2⟩ 5).1).length = 2 :=
  freeviz_partial_result_streaming.2.2.2.1 Nat Nat.succ (fun _ _ => false)
    0 2 5 (fun _ _ => rfl) (by decide) (by decide)

/-- **C9.** `run_freeviz`'s loop has exactly two exits — successive anchor
states passing the `np.allclose` test, or an observed interruption request.
The step counter and `MAX_ITERATIONS = 1000` never terminate the loop: a
non-converging run with no interruption finishes within no fuel bound, and
the reported progress value `100 * step / MAX_ITERATIONS` can exceed 100. -/
theorem freeviz_loop_termination_structure :
    (∀ (A : Type) (stepf : A → A) (near : A → A → Bool) (st : TaskState)
        (fuel step : Nat) (a : A) (r : OWFreeViz.Result A),
      (OWFreeViz.loop stepf near st a step fuel).2 = some r →
      ∃ n, 1 ≤ n ∧ n ≤ fuel ∧ r.projector = stepf^[n] a ∧
        (near (stepf^[n - 1] a) (stepf^[n] a) = true ∨
          st.isInterruptionRequested (step + n) = true)) ∧
    (∀ (A : Type) (stepf : A → A) (near : A → A → Bool),
      (∀ a b, near a b = false) →
      ∀ (fuel step : Nat) (a : A),
        (OWFreeViz.loop stepf near (⟨none⟩ : TaskState) a step fuel).2 =
          none) ∧
    OWFreeViz.MAX_ITERATIONS = 1000 ∧
    (∃ v : ℚ, OWFreeViz.Ev.progress v ∈
        (OWFreeViz.run_freeviz Nat.succ (fun _ _ => false) 0
          ⟨some (OWFreeViz.MAX_ITERATIONS + 1)⟩
          (OWFreeViz.MAX_ITERATIONS + 1)).1 ∧
      (100 : ℚ) < v) := by
  refine ⟨fun A stepf near st fuel step a r h =>
      freeviz_loop_exit stepf near st fuel step a r h,
    fun A stepf near hnear fuel step a =>
      freeviz_loop_no_exit stepf near ⟨none⟩ hnear rfl fuel step a,
    rfl, ?_⟩
  have h := freeviz_loop_interrupted Nat.succ (fun _ _ => false)
    ⟨some (OWFreeViz.MAX_ITERATIONS + 1)⟩ (OWFreeViz.MAX_ITERATIONS + 1)
    (fun _ _ => rfl) rfl (OWFreeViz.MAX_ITERATIONS + 1) 0 0
    (by simp [OWFreeViz.MAX_ITERATIONS]) (by omega)
  refine ⟨(100 * (OWFreeViz.MAX_ITERATIONS + 1 : Nat) : ℚ) /
      OWFreeViz.MAX_ITERATIONS, ?_, ?_⟩
  · simp only [OWFreeViz.run_freeviz]
    rcases hE : OWFreeViz.loop Nat.succ (fun _ _ => false)
        ⟨some (OWFreeViz.MAX_ITERATIONS + 1)⟩ 0 0
        (OWFreeViz.MAX_ITERATIONS + 1) with ⟨evs, r⟩
    rw [hE] at h
    obtain ⟨_, _, hm⟩ := h
    simp only [List.mem_cons]
    exact Or.inr hm
  · rw [OWFreeViz.MAX_ITERATIONS]
    norm_num

/-- Witness for C9: with no convergence and no interruption the loop is
still running after 2000 iterations, twice `MAX_ITERATIONS`. -/
theorem freeviz_loop_termination_structure_witness :
    (OWFreeViz.loop Nat.succ (fun _ _ => false) (⟨none⟩ : TaskState)
      0 0 2000).2 = none :=
  freeviz_loop_termination_structure.2.1 Nat Nat.succ (fun _ _ => false)
    (fun _ _ => rfl) 2000 0 0

/-- `terminalsFor` adds over concatenated callback traces. -/
theorem terminalsFor_append (g : Nat)
    (a b : List ConcurrentWidgetMixin.Callback) :
    ConcurrentWidgetMixin.terminalsFor g (a ++ b) =
      ConcurrentWidgetMixin.terminalsFor g a +
        ConcurrentWidgetMixin.terminalsFor g b :=
  List.countP_append _ _ _

/-- A lifecycle step preserves the generation-order invariant. -/
theorem mixin_step_WF (s : ConcurrentWidgetMixin.MState)
    (c : ConcurrentWidgetMixin.Cmd) (hwf : ConcurrentWidgetMixin.WF s) :
    ConcurrentWidgetMixin.WF (ConcurrentWidgetMixin.step s c).1 := by
  cases c with
  | start =>
    intro g hg
    simp [ConcurrentWidgetMixin.step] at hg ⊢
    omega
  | cancel =>
    intro g hg
    simp [ConcurrentWidgetMixin.step] at hg
  | finish g' ok =>
    intro g hg
    by_cases hc : s.current = some g'
    · simp [ConcurrentWidgetMixin.step, hc] at hg
    · simp [ConcurrentWidgetMixin.step, hc] at hg ⊢
      exact hwf g hg

/-- A generation's delivery bound never exceeds one. -/
theorem mixin_bound_le_one (s : ConcurrentWidgetMixin.MState) (g : Nat) :
    ConcurrentWidgetMixin.bound s g ≤ 1 := by
  rw [ConcurrentWidgetMixin.bound]
  split_ifs <;> omega

/-- A not-yet-handed-out generation's bound is one. -/
theorem mixin_bound_eq_one_of_le (s : ConcurrentWidgetMixin.MState) (g : Nat)
    (h : s.nextGen ≤ g) : ConcurrentWidgetMixin.bound s g = 1 := by
  rw [ConcurrentWidgetMixin.bound, if_pos (Or.inr h)]

/-- Over any command sequence from a well-formed state, generation `g` gets
at most `bound s g` terminal callbacks. -/
theorem mixin_count_le_bound (cmds : List ConcurrentWidgetMixin.Cmd) :
    ∀ (s : ConcurrentWidgetMixin.MState) (g : Nat),
      ConcurrentWidgetMixin.WF s →
      ConcurrentWidgetMixin.terminalsFor g
          (ConcurrentWidgetMixin.runCmds s cmds) ≤
        ConcurrentWidgetMixin.bound s g := by
  induction cmds with
  | nil =>
    intro s g _
    exact Nat.zero_le _
  | cons c cs ih =>
    intro s g hwf
    have hrest := ih (ConcurrentWidgetMixin.step s c).1 g (mixin_step_WF s c hwf)
    have hble : ConcurrentWidgetMixin.bound ⟨s.nextGen, none⟩ g ≤
        ConcurrentWidgetMixin.bound s g := by
      by_cases hng : s.nextGen ≤ g
      · rw [mixin_bound_eq_one_of_le s g hng]
        exact mixin_bound_le_one _ g
      · have h0 : ConcurrentWidgetMixin.bound ⟨s.nextGen, none⟩ g = 0 := by
          rw [ConcurrentWidgetMixin.bound, if_neg]
          rintro (h | h)
          · exact Option.noConfusion h
          · exact hng h
        rw [h0]
        exact Nat.zero_le _
    cases c with
    | start =>
      simp only [ConcurrentWidgetMixin.runCmds, ConcurrentWidgetMixin.step,
        List.nil_append] at hrest ⊢
      refine le_trans hrest ?_
      by_cases hng : s.nextGen ≤ g
      · rw [mixin_bound_eq_one_of_le s g hng]
        exact mixin_bound_le_one _ g
      · have h0 : ConcurrentWidgetMixin.bound
            ⟨s.nextGen + 1, some s.nextGen⟩ g = 0 := by
          rw [ConcurrentWidgetMixin.bound, if_neg]
          rintro (h | h) <;> simp at h <;> omega
        rw [h0]
        exact Nat.zero_le _
    | cancel =>
      simp only [ConcurrentWidgetMixin.runCmds, ConcurrentWidgetMixin.step,
        List.nil_append] at hrest ⊢
      exact le_trans hrest hble
    | finish g' ok =>
      by_cases hc : s.current = some g'
      · simp only [ConcurrentWidgetMixin.runCmds,
          ConcurrentWidgetMixin.step, hc, if_pos] at hrest ⊢
        rw [terminalsFor_append]
        by_cases hg : g = g'
        · subst hg
          have hbound : ConcurrentWidgetMixin.bound
              ⟨s.nextGen, none⟩ g = 0 := by
            have := hwf g hc
            simp only [ConcurrentWidgetMixin.bound]
            rw [if_neg]
            rintro (h | h)
            · exact Option.noConfusion h
            · omega
          rw [hbound] at hrest
          have hone : ConcurrentWidgetMixin.terminalsFor g
              [if ok then ConcurrentWidgetMixin.Callback.onDone g
               else ConcurrentWidgetMixin.Callback.onException g] = 1 := by
            cases ok <;> simp [ConcurrentWidgetMixin.terminalsFor]
          rw [hone]
          have hb1 : ConcurrentWidgetMixin.bound s g = 1 := by
            simp [ConcurrentWidgetMixin.bound, hc]
          omega
        · have hg' : ¬(g' = g) := fun h => hg (Eq.symm h)
          have hzero : ConcurrentWidgetMixin.terminalsFor g
              [if ok then ConcurrentWidgetMixin.Callback.onDone g'
               else ConcurrentWidgetMixin.Callback.onException g'] = 0 := by
            cases ok <;> simp [ConcurrentWidgetMixin.terminalsFor, hg']
          rw [hzero, Nat.zero_add]
          exact le_trans hrest hble
      · simp only [ConcurrentWidgetMixin.runCmds,
          ConcurrentWidgetMixin.step, hc, if_neg, List.nil_append]
        simp only [ConcurrentWidgetMixin.step, hc, if_neg] at hrest
        exact hrest

/-- **C3.** Exactly-once terminal delivery (model of `ConcurrentWidgetMixin`,
which is not among the `src/` files — modelled from the spec): over any
interleaving of `start`, `cancel` and task completions, each started task
generation receives at most one terminal callback; a task completing while
still current delivers exactly one of `on_done`/`on_exception` (by success or
failure); a task completing after it was cancelled or superseded delivers
nothing; and `cancel` clears the current task. -/
theorem exactly_once_terminal_delivery :
    (∀ (cmds : List ConcurrentWidgetMixin.Cmd) (g : Nat),
      ConcurrentWidgetMixin.terminalsFor g
        (ConcurrentWidgetMixin.runCmds {} cmds) ≤ 1) ∧
    (∀ (s : ConcurrentWidgetMixin.MState) (g : Nat) (ok : Bool),
      s.current = some g →
      (ConcurrentWidgetMixin.step s (.finish g ok)).2 =
        [if ok then ConcurrentWidgetMixin.Callback.onDone g
         else ConcurrentWidgetMixin.Callback.onException g]) ∧
    (∀ (s : ConcurrentWidgetMixin.MState) (g : Nat) (ok : Bool),
      s.current ≠ some g →
      (ConcurrentWidgetMixin.step s (.finish g ok)).2 = []) ∧
    (∀ s : ConcurrentWidgetMixin.MState,
      (ConcurrentWidgetMixin.step s .cancel).1.current = none) := by
  refine ⟨?_, ?_, ?_, fun s => rfl⟩
  · intro cmds g
    have h := mixin_count_le_bound cmds {} g (fun g' hg' => by simp at hg')
    refine le_trans h ?_
    simp [ConcurrentWidgetMixin.bound]
  · intro s g ok hc
    simp [ConcurrentWidgetMixin.step, hc]
  · intro s g ok hc
    simp [ConcurrentWidgetMixin.step, hc]

/-- Witness for C3: a cancelled task's completion delivers no callback. -/
theorem exactly_once_terminal_delivery_witness :
    (ConcurrentWidgetMixin.step ⟨1, none⟩
      (ConcurrentWidgetMixin.Cmd.finish 0 true)).2 = [] :=
  exactly_once_terminal_delivery.2.2.1 ⟨1, none⟩ 0 true (by simp)

/-- With auto-commit off, a fold of deferred parameter changes only
accumulates the parameter updates and the dirty flag: the commit body never
runs. -/
theorem param_changed_foldl {P O : Type} (body : P → O) :
    ∀ (upds : List (P → P)) (s : DeferredCommit.CState P O),
      s.auto = false →
      upds.foldl (fun st u => DeferredCommit.param_changed body u st) s =
        { s with params := upds.foldl (fun p u => u p) s.params
                 dirty := s.dirty || !upds.isEmpty } := by
  intro upds
  induction upds with
  | nil => intro s _; simp
  | cons u us ih =>
    intro s hauto
    simp only [List.foldl_cons]
    have hpc : DeferredCommit.param_changed body u s =
        { s with params := u s.params, dirty := true } := by
      rw [DeferredCommit.param_changed, DeferredCommit.commitDeferred]
      simp [hauto]
    rw [hpc, ih { s with params := u s.params, dirty := true } hauto]
    simp

/-- **C5.** Output recomputation goes through one coalesced commit (model of
`gui.deferred` / auto-apply, which is not among the `src/` files — modelled
from the spec; the wiring is from `owoutliers.py`: `set_data` calls
`commit.now()`, the parameter editors connect to `commit.deferred`): a new
input recomputes immediately; with auto-commit off a parameter change only
marks the widget dirty, any number of parameter changes cause no
recomputation until apply, which recomputes exactly once; both paths run the
same commit body, so equal parameters give equal outputs. -/
theorem coalesced_commit :
    (∀ (P O : Type) (body : P → O) (upd : P → P)
        (s : DeferredCommit.CState P O),
      (DeferredCommit.set_data body upd s).runs = s.runs + 1 ∧
      (DeferredCommit.set_data body upd s).output =
        some (body (upd s.params))) ∧
    (∀ (P O : Type) (body : P → O) (upd : P → P)
        (s : DeferredCommit.CState P O), s.auto = false →
      (DeferredCommit.param_changed body upd s).runs = s.runs ∧
      (DeferredCommit.param_changed body upd s).output = s.output ∧
      (DeferredCommit.param_changed body upd s).dirty = true) ∧
    (∀ (P O : Type) (body : P → O) (upds : List (P → P))
        (s : DeferredCommit.CState P O), s.auto = false → upds ≠ [] →
      (upds.foldl (fun st u => DeferredCommit.param_changed body u st)
          s).runs = s.runs ∧
      (DeferredCommit.applyPressed body
        (upds.foldl (fun st u => DeferredCommit.param_changed body u st)
          s)).runs = s.runs + 1 ∧
      (DeferredCommit.applyPressed body
        (upds.foldl (fun st u => DeferredCommit.param_changed body u st)
          s)).output =
        some (body (upds.foldl (fun p u => u p) s.params))) ∧
    (∀ (P O : Type) (body : P → O) (upd : P → P)
        (s1 s2 : DeferredCommit.CState P O), s2.auto = false →
      upd s1.params = upd s2.params →
      (DeferredCommit.set_data body upd s1).output =
        (DeferredCommit.applyPressed body
          (DeferredCommit.param_changed body upd s2)).output) := by
  refine ⟨fun P O body upd s => ⟨rfl, rfl⟩, ?_, ?_, ?_⟩
  · intro P O body upd s hauto
    rw [DeferredCommit.param_changed, DeferredCommit.commitDeferred]
    simp [hauto]
  · intro P O body upds s hauto hne
    rw [param_changed_foldl body upds s hauto]
    have hdirty : (s.dirty || !upds.isEmpty) = true := by
      cases upds with
      | nil => exact absurd rfl hne
      | cons u us => simp
    constructor
    · rfl
    · rw [DeferredCommit.applyPressed]
      simp only [hdirty, if_pos]
      exact ⟨rfl, rfl⟩
  · intro P O body upd s1 s2 hauto hupd
    have hpc : DeferredCommit.param_changed body upd s2 =
        { s2 with params := upd s2.params, dirty := true } := by
      rw [DeferredCommit.param_changed, DeferredCommit.commitDeferred]
      simp [hauto]
    rw [hpc, DeferredCommit.applyPressed]
    simp only [if_pos]
    show some (body (upd s1.params)) = some (body (upd s2.params))
    rw [hupd]

/-- Witness for C5: a concrete deferred change followed by apply recomputes
once. -/
theorem coalesced_commit_witness :
    ((([fun p => p + 1] : List (Nat → Nat)).foldl
        (fun st u => DeferredCommit.param_changed (fun p : Nat => p * 2) u st)
        ⟨false, 3, false, none, 0⟩).runs = 0) ∧
    (DeferredCommit.applyPressed (fun p : Nat => p * 2)
      (([fun p => p + 1] : List (Nat → Nat)).foldl
        (fun st u => DeferredCommit.param_changed (fun p : Nat => p * 2) u st)
        ⟨false, 3, false, none, 0⟩)).output = some 8 :=
  ⟨(coalesced_commit.2.2.1 Nat Nat (fun p => p * 2) [fun p => p + 1]
      ⟨false, 3, false, none, 0⟩ rfl (by simp)).1,
   (coalesced_commit.2.2.1 Nat Nat (fun p => p * 2) [fun p => p + 1]
      ⟨false, 3, false, none, 0⟩ rfl (by simp)).2.2⟩

/-- When one of the four error conditions of `OWDataSampler.updateindices`
holds, the function activates an error, nulls `indices` and returns before
sampling: the resulting state differs from the input only in `errors`,
`warnings` (cleared) and `indices`. -/
theorem updateindices_error {Row : Type}
    (sampler : Bool → Option OWDataSampler.IndicesV)
    (s : OWDataSampler.State Row) (d : List Row)
    (hcond : d = [] ∨
      (d ≠ [] ∧ s.sampling_type = OWDataSampler.CrossValidation ∧
        d.length < s.number_of_folds) ∨
      (d ≠ [] ∧ s.sampling_type = OWDataSampler.FixedSize ∧
        s.replacement = false ∧ d.length < s.sampleSizeNumber) ∨
      (d ≠ [] ∧ s.stratify = true ∧
        d.length ≤ s.numClassValues.getD 0 ∧
        (s.sampling_type = OWDataSampler.FixedProportion ∨
          (s.sampling_type = OWDataSampler.FixedSize ∧
            s.replacement = false)))) :
    ∃ errs, errs ≠ [] ∧
      OWDataSampler.updateindices sampler s d =
        some { s with errors := errs, warnings := [], indices := none } := by
  rcases hcond with rfl | ⟨hne, hst, hlt⟩ | ⟨hne, hst, hrep, hlt⟩ |
    ⟨hne, hstr, hcls, hty⟩
  · exact ⟨[OWDataSampler.SErr.no_data], by simp,
      by simp [OWDataSampler.updateindices]⟩
  · refine ⟨[OWDataSampler.SErr.too_many_folds], by simp, ?_⟩
    simp [OWDataSampler.updateindices, hst, hlt, List.length_eq_zero, hne,
      OWDataSampler.CrossValidation, OWDataSampler.FixedSize,
      OWDataSampler.FixedProportion]
  · by_cases hq : (decide (d.length ≤ s.numClassValues.getD 0) &&
        s.stratify) = true
    · refine ⟨[OWDataSampler.SErr.sample_larger_than_data,
        OWDataSampler.SErr.not_enough_to_stratify], by simp, ?_⟩
      simp [OWDataSampler.updateindices, hst, hrep, hlt, hq,
        List.length_eq_zero, hne,
        OWDataSampler.FixedSize, OWDataSampler.FixedProportion,
        OWDataSampler.CrossValidation]
    · have hq' : (decide (d.length ≤ s.numClassValues.getD 0) &&
          s.stratify) = false := by
        cases h : (decide (d.length ≤ s.numClassValues.getD 0) &&
            s.stratify)
        · rfl
        · exact absurd h hq
      refine ⟨[OWDataSampler.SErr.sample_larger_than_data], by simp, ?_⟩
      simp [OWDataSampler.updateindices, hst, hrep, hlt, hq',
        List.length_eq_zero, hne,
        OWDataSampler.FixedSize, OWDataSampler.FixedProportion,
        OWDataSampler.CrossValidation]
  · rcases hty with hst | ⟨hst, hrep⟩
    · by_cases hbig : d.length < OWDataSampler.ceilPct
          s.sampleSizePercentage d.length
      · refine ⟨[OWDataSampler.SErr.sample_larger_than_data,
          OWDataSampler.SErr.not_enough_to_stratify], by simp, ?_⟩
        simp [OWDataSampler.updateindices, hst, hstr, hcls, hbig,
          List.length_eq_zero, hne,
          OWDataSampler.FixedSize, OWDataSampler.FixedProportion,
          OWDataSampler.CrossValidation]
      · refine ⟨[OWDataSampler.SErr.not_enough_to_stratify], by simp, ?_⟩
        simp [OWDataSampler.updateindices, hst, hstr, hcls, hbig,
          List.length_eq_zero, hne,
          OWDataSampler.FixedSize, OWDataSampler.FixedProportion,
          OWDataSampler.CrossValidation]
    · by_cases hbig : d.length < s.sampleSizeNumber
      · refine ⟨[OWDataSampler.SErr.sample_larger_than_data,
          OWDataSampler.SErr.not_enough_to_stratify], by simp, ?_⟩
        simp [OWDataSampler.updateindices, hst, hrep, hstr, hcls, hbig,
          List.length_eq_zero, hne,
          OWDataSampler.FixedSize, OWDataSampler.FixedProportion,
          OWDataSampler.CrossValidation]
      · refine ⟨[OWDataSampler.SErr.not_enough_to_stratify], by simp, ?_⟩
        simp [OWDataSampler.updateindices, hst, hrep, hstr, hcls, hbig,
          List.length_eq_zero, hne,
          OWDataSampler.FixedSize, OWDataSampler.FixedProportion,
          OWDataSampler.CrossValidation]

/-- When the refreshed indices are still `None`, `commit` returns the
refreshed state without sending anything. -/
theorem sampler_commit_on_error {Row : Type}
    (sampler : Bool → Option OWDataSampler.IndicesV)
    (s : OWDataSampler.State Row) (d : List Row) (s' : OWDataSampler.State Row)
    (hd : s.data = some d) (hind : s.indices = none)
    (hupd : OWDataSampler.updateindices sampler s d = some s')
    (hind' : s'.indices = none) :
    OWDataSampler.commit sampler s = some s' := by
  rw [OWDataSampler.commit]
  simp [hd, hind, hupd, hind']

/-- **C10.** In `OWDataSampler`, for non-SQL data, whenever `updateindices`
activates an error — empty data, more folds than instances, a sample larger
than the data without replacement, or too few instances to stratify —
`indices` is set to `None` and `commit` returns before sending, so both
output channels and the instance counters keep their previous values. -/
theorem sampler_error_keeps_outputs {Row : Type}
    (sampler : Bool → Option OWDataSampler.IndicesV)
    (s : OWDataSampler.State Row) (d : List Row)
    (hd : s.data = some d) (hind : s.indices = none)
    (hcond : d = [] ∨
      (d ≠ [] ∧ s.sampling_type = OWDataSampler.CrossValidation ∧
        d.length < s.number_of_folds) ∨
      (d ≠ [] ∧ s.sampling_type = OWDataSampler.FixedSize ∧
        s.replacement = false ∧ d.length < s.sampleSizeNumber) ∨
      (d ≠ [] ∧ s.stratify = true ∧
        d.length ≤ s.numClassValues.getD 0 ∧
        (s.sampling_type = OWDataSampler.FixedProportion ∨
          (s.sampling_type = OWDataSampler.FixedSize ∧
            s.replacement = false)))) :
    ∃ s', OWDataSampler.commit sampler s = some s' ∧
      s'.errors ≠ [] ∧ s'.indices = none ∧
      s'.out_data_sample = s.out_data_sample ∧
      s'.out_remaining_data = s.out_remaining_data ∧
      s'.sampled_instances = s.sampled_instances ∧
      s'.remaining_instances = s.remaining_instances := by
  obtain ⟨errs, hne, hupd⟩ := updateindices_error sampler s d hcond
  refine ⟨{ s with errors := errs, warnings := [], indices := none },
    sampler_commit_on_error sampler s d _ hd hind hupd rfl,
    hne, rfl, rfl, rfl, rfl, rfl⟩

/-- Witness for C10: a five-row input in cross-validation mode with ten folds
errors out and sends nothing — the commit leaves the previously sent outputs
in place. -/
theorem sampler_error_keeps_outputs_witness :
    ∃ s', OWDataSampler.commit (fun _ => none)
        ({ data := some [1, 2, 3, 4, 5],
           sampling_type := OWDataSampler.CrossValidation,
           out_data_sample := some [1, 2],
           out_remaining_data := some [3, 4, 5] } :
          OWDataSampler.State Nat) = some s' ∧
      s'.errors ≠ [] ∧ s'.indices = none ∧
      s'.out_data_sample = some [1, 2] ∧
      s'.out_remaining_data = some [3, 4, 5] ∧
      s'.sampled_instances = none ∧
      s'.remaining_instances = none :=
  sampler_error_keeps_outputs (fun _ => none)
    ({ data := some [1, 2, 3, 4, 5],
       sampling_type := OWDataSampler.CrossValidation,
       out_data_sample := some [1, 2],
       out_remaining_data := some [3, 4, 5] } : OWDataSampler.State Nat)
    [1, 2, 3, 4, 5] rfl rfl
    (Or.inr (Or.inl ⟨by decide, rfl, by decide⟩))

end Spec2Proof




